import Mathlib

/-!
# gae-experiment: blog counter and URL shortener

A shallow embedding of `src/hello/blog.go` and `src/hello/shortener.go`: the counter
allocation `getAndIncBlogCtr`, the handlers `createBlog`, `getOneBlog`, `shorten` and
`unshorten`, and the helpers they call.  The HTML listing `listBlogs` and the dispatcher
`getBlog` are not embedded.

* Go `int` is the 64-bit signed integer of the targets App Engine runs on: values are
  `Int`, and the one arithmetic operation of the source (`Ctr++`) wraps with `wrapInt`.
* Go `string` is `String`.
* The datastore is explicit state (`Datastore`), one table per entity kind the handlers
  use; a handler is a function from the datastore and the request to the response and the
  new datastore.  Requests are served one after the other.  Failures of the external
  services are inputs (`Faults`).
* A panic of a handler is recorded in its outcome, next to what it had written before.
* Library calls keep their documented behaviour: `net/http` (`ResponseWriter`),
  `time.Time.Unix`, `strconv.Itoa`, `crypto/sha256` (FIPS 180-4), `encoding/hex`.
-/

namespace Hello

/-! ## Go integers -/

/-- Two's-complement wrap-around of Go's `int` arithmetic. -/
def wrapInt (i : Int) : Int := (i + 2 ^ 63) % 2 ^ 64 - 2 ^ 63

/-- Largest Go `int`. -/
def maxInt : Int := 2 ^ 63 - 1

/-- Decimal rendering of `strconv.Itoa`. -/
def Itoa (i : Int) : String :=
  match i with
  | Int.ofNat n => Nat.repr n
  | Int.negSucc n => "-" ++ Nat.repr (n + 1)

/-! ## time.Time -/

/-- Instant of `time.Time`: seconds since January 1, year 1 00:00:00 UTC, and nanoseconds.
The zero value of the Go type is that first instant. -/
structure Time where
  sec : Int
  nsec : Nat
deriving DecidableEq, Repr

/-- Zero value `time.Time{}`. -/
def Time.zero : Time := ⟨0, 0⟩

/-- Seconds from January 1, year 1 to January 1, 1970 (`unixToInternal` of package time). -/
def unixToInternal : Int := (1969 * 365 + 1969 / 4 - 1969 / 100 + 1969 / 400) * 86400

/-- Seconds since January 1, 1970 UTC, as `Time.Unix` computes them. -/
def Time.Unix (t : Time) : Int := t.sec - unixToInternal

/-- Instant test `Time.IsZero`. -/
def Time.IsZero (t : Time) : Bool := t.sec == 0 && t.nsec == 0

/-! ## crypto/sha256 and encoding/hex -/

def sha256Init : List Nat :=
  [0x6a09e667, 0xbb67ae85, 0x3c6ef372, 0xa54ff53a, 0x510e527f, 0x9b05688c, 0x1f83d9ab, 0x5be0cd19]

def sha256K : List Nat :=
  [0x428a2f98, 0x71374491, 0xb5c0fbcf, 0xe9b5dba5,
   0x3956c25b, 0x59f111f1, 0x923f82a4, 0xab1c5ed5,
   0xd807aa98, 0x12835b01, 0x243185be, 0x550c7dc3,
   0x72be5d74, 0x80deb1fe, 0x9bdc06a7, 0xc19bf174,
   0xe49b69c1, 0xefbe4786, 0x0fc19dc6, 0x240ca1cc,
   0x2de92c6f, 0x4a7484aa, 0x5cb0a9dc, 0x76f988da,
   0x983e5152, 0xa831c66d, 0xb00327c8, 0xbf597fc7,
   0xc6e00bf3, 0xd5a79147, 0x06ca6351, 0x14292967,
   0x27b70a85, 0x2e1b2138, 0x4d2c6dfc, 0x53380d13,
   0x650a7354, 0x766a0abb, 0x81c2c92e, 0x92722c85,
   0xa2bfe8a1, 0xa81a664b, 0xc24b8b70, 0xc76c51a3,
   0xd192e819, 0xd6990624, 0xf40e3585, 0x106aa070,
   0x19a4c116, 0x1e376c08, 0x2748774c, 0x34b0bcb5,
   0x391c0cb3, 0x4ed8aa4a, 0x5b9cca4f, 0x682e6ff3,
   0x748f82ee, 0x78a5636f, 0x84c87814, 0x8cc70208,
   0x90befffa, 0xa4506ceb, 0xbef9a3f7, 0xc67178f2]

/-- Addition of 32-bit words. -/
def add32 (a b : Nat) : Nat := (a + b) % 2 ^ 32

/-- Right rotation of a 32-bit word. -/
def rotr (x n : Nat) : Nat := ((x >>> n) ||| (x <<< (32 - n))) % 2 ^ 32

def bigSigma0 (x : Nat) : Nat := rotr x 2 ^^^ rotr x 13 ^^^ rotr x 22

def bigSigma1 (x : Nat) : Nat := rotr x 6 ^^^ rotr x 11 ^^^ rotr x 25

def smallSigma0 (x : Nat) : Nat := rotr x 7 ^^^ rotr x 18 ^^^ (x >>> 3)

def smallSigma1 (x : Nat) : Nat := rotr x 17 ^^^ rotr x 19 ^^^ (x >>> 10)

def ch (x y z : Nat) : Nat := (x &&& y) ^^^ ((x ^^^ (2 ^ 32 - 1)) &&& z)

def maj (x y z : Nat) : Nat := (x &&& y) ^^^ (x &&& z) ^^^ (y &&& z)

/-- Message padding: a one bit, zero bytes up to 56 modulo 64, the bit length on 8 bytes. -/
def sha256Pad (msg : List Nat) : List Nat :=
  let bits := (8 * msg.length) % 2 ^ 64
  msg ++ [0x80] ++ List.replicate ((64 - (msg.length + 9) % 64) % 64) 0
    ++ (List.range 8).map (fun i => (bits >>> (8 * (7 - i))) % 256)

/-- Big-endian value of a byte sequence. -/
def beWord (bs : List Nat) : Nat := bs.foldl (fun acc b => acc * 256 + b) 0

/-- The sixteen 32-bit words of a 64-byte block. -/
def blockWords (block : List Nat) : List Nat :=
  (List.range 16).map (fun i => beWord ((block.drop (4 * i)).take 4))

/-- Message schedule of a block: its 16 words extended to 64. -/
def schedule (block : List Nat) : List Nat :=
  (List.range 48).foldl
    (fun w i =>
      let t := i + 16
      w ++ [add32 (add32 (smallSigma1 (w.getD (t - 2) 0)) (w.getD (t - 7) 0))
              (add32 (smallSigma0 (w.getD (t - 15) 0)) (w.getD (t - 16) 0))])
    (blockWords block)

/-- One round of the compression function on the working variables `a..h`. -/
def sha256Round (s : List Nat) (kw : Nat × Nat) : List Nat :=
  match s with
  | [a, b, c, d, e, f, g, h] =>
    let t1 := add32 (add32 (add32 h (bigSigma1 e)) (add32 (ch e f g) kw.1)) kw.2
    let t2 := add32 (bigSigma0 a) (maj a b c)
    [add32 t1 t2, a, b, c, add32 d t1, e, f, g]
  | _ => s

/-- Compression of one block into the hash state. -/
def sha256Block (h : List Nat) (block : List Nat) : List Nat :=
  List.zipWith add32 h ((sha256K.zip (schedule block)).foldl sha256Round h)

/-- Final hash state after every block of the padded message. -/
def sha256State (msg : List Nat) : List Nat :=
  let p := sha256Pad msg
  (List.range (p.length / 64)).foldl
    (fun h i => sha256Block h ((p.drop (64 * i)).take 64)) sha256Init

/-- Big-endian bytes of a 32-bit word. -/
def wordBytes (w : Nat) : List Nat := [(w >>> 24) % 256, (w >>> 16) % 256, (w >>> 8) % 256, w % 256]

/-- Digest `h.Sum(nil)` of a hash that was written the bytes `msg`. -/
def sha256Sum (msg : List Nat) : List Nat := (sha256State msg).flatMap wordBytes

def hexDigit (n : Nat) : Char := "0123456789abcdef".toList.getD n '0'

/-- Lowercase hexadecimal text of `hex.EncodeToString`. -/
def hexEncodeToString (bs : List Nat) : String :=
  String.mk (bs.flatMap (fun b => [hexDigit (b / 16), hexDigit (b % 16)]))

/-- Bytes `[]byte(s)` of a string. -/
def stringBytes (s : String) : List Nat := s.toUTF8.toList.map UInt8.toNat

/-- Content address of an input: `hex.EncodeToString` of its SHA-256 digest,
as `shorten` computes `hashHex`. -/
def sha256Hex (s : String) : String := hexEncodeToString (sha256Sum (stringBytes s))

/-! ## Entities and the datastore -/

/-- Entity `BlogPost` of kind `BlogKind`. -/
structure BlogPost where
  Id : Int
  Title : String
  Body : String
  Ts : Time
deriving DecidableEq, Repr

/-- Zero value `BlogPost{}`. -/
def BlogPost.zero : BlogPost := ⟨0, "", "", Time.zero⟩

/-- Entity `GlobalBlogState`: the blog counter record. -/
structure GlobalBlogState where
  Ctr : Int
deriving DecidableEq, Repr

/-- Entity `ShortRec` of kind `UrlKind`. -/
structure ShortRec where
  Url : String
  Short : String
deriving DecidableEq, Repr

/-- Contents of the datastore: the entities of kind `"blog"` and of kind `"shurls"` by
string id, in the order the store returns them to a query, and the entity of kind
`"globalBlogState"` with id `"globalBlogState"`, when there is one. -/
structure Datastore where
  blog : List (String × BlogPost)
  globalBlogState : Option GlobalBlogState
  shurls : List (String × ShortRec)
deriving DecidableEq, Repr

/-- Datastore without entities. -/
def Datastore.empty : Datastore := ⟨[], none, []⟩

/-- Upsert of `datastore.Put`: the entity under an existing key is replaced, a new key is
added. -/
def putEntity {α : Type} (key : String) (v : α) : List (String × α) → List (String × α)
  | [] => [(key, v)]
  | (k, x) :: rest => if k = key then (key, v) :: rest else (k, x) :: putEntity key v rest

/-- Point read of `datastore.Get`: `none` stands for `ErrNoSuchEntity`. -/
def getEntity {α : Type} (key : String) (es : List (String × α)) : Option α :=
  es.lookup key

/-- Message of `datastore.ErrNoSuchEntity`. -/
def ErrNoSuchEntity : String := "datastore: no such entity"

/-- Failures of the datastore calls of one request, each `none` (the call succeeds) or the
error's message.  `ctrGet` is a failure of the counter read other than `ErrNoSuchEntity`;
`commit` is `RunInTransaction` failing after the function returned nil; `blogGet` is a
failure of the post read other than `ErrNoSuchEntity`. -/
structure Faults where
  ctrGet : Option String
  ctrPut : Option String
  commit : Option String
  postPut : Option String
  blogGet : Option String
  urlQuery : Option String
  urlPut : Option String
deriving DecidableEq, Repr

/-- No datastore call fails. -/
def Faults.none : Faults := ⟨.none, .none, .none, .none, .none, .none, .none⟩

/-- What a request observes of App Engine (`appengine.Context`): the clock, the signed-in
user, the login URL or the error of `user.LoginURL`, and the datastore failures. -/
structure Context where
  now : Time
  user : Option String
  loginURL : String
  loginURLErr : Option String
  faults : Faults
deriving DecidableEq, Repr

/-- Incoming `http.Request`: the method, the `Content-type` header, the bytes
`ioutil.ReadAll(r.Body)` returns (`none`: the read fails), the URL query, the outcome of
`r.ParseForm` with the form values, and the post `json.Unmarshal` decodes from the body
into the zero post (`none`: it reports an error). -/
structure Request where
  Method : String
  contentType : String
  body : Option String
  query : List (String × String)
  parseFormErr : Option String
  form : List (String × String)
  unmarshal : Option BlogPost
deriving DecidableEq, Repr

/-- First value of a key, or the empty string: `url.Values.Get`. -/
def valuesGet (vs : List (String × String)) (key : String) : String :=
  (vs.lookup key).getD ""

/-! ## net/http responses -/

/-- Value handed to `jsonOrPanic`. -/
inductive Json where
  | msi_error (errMsg : String)
  | shortRec (r : ShortRec)
deriving DecidableEq, Repr

/-- Bytes of one `w.Write`: the JSON text of a value, a text, or the HTML that
`blackfriday.MarkdownBasic` renders from a source. -/
inductive Payload where
  | json (i : Json)
  | text (s : String)
  | markdownBasic (src : String)
deriving DecidableEq, Repr

/-- State of an `http.ResponseWriter`: the header map, the status code once the header is
written, and the writes to the body. -/
structure ResponseWriter where
  header : List (String × String)
  status : Option Int
  body : List Payload
deriving DecidableEq, Repr

/-- Response writer of a request that is not yet answered. -/
def ResponseWriter.fresh : ResponseWriter := ⟨[], none, []⟩

def canonicalChars : Bool → List Char → List Char
  | _, [] => []
  | upper, c :: cs => (if upper then c.toUpper else c.toLower) :: canonicalChars (c == '-') cs

/-- Canonical form of a header key (`textproto.CanonicalMIMEHeaderKey`) for keys of
letters, digits and hyphens. -/
def CanonicalHeaderKey (s : String) : String := String.mk (canonicalChars true s.toList)

/-- Header assignment `w.Header().Set(key, value)`. -/
def ResponseWriter.HeaderSet (w : ResponseWriter) (key value : String) : ResponseWriter :=
  { w with header := putEntity (CanonicalHeaderKey key) value w.header }

/-- Status line `w.WriteHeader(code)`: the first call fixes the status, a later call is
superfluous and changes nothing. -/
def ResponseWriter.WriteHeader (w : ResponseWriter) (code : Int) : ResponseWriter :=
  match w.status with
  | some _ => w
  | none => { w with status := some code }

/-- Body write `w.Write(b)`: when the header is not yet written it is written first, with
status 200. -/
def ResponseWriter.Write (w : ResponseWriter) (b : Payload) : ResponseWriter :=
  let w1 := w.WriteHeader 200
  { w1 with body := w1.body ++ [b] }

/-- Library `http.Error`. -/
def httpError (w : ResponseWriter) (error : String) (code : Int) : ResponseWriter :=
  (((w.HeaderSet "Content-Type" "text/plain; charset=utf-8").HeaderSet
    "X-Content-Type-Options" "nosniff").WriteHeader code).Write (.text (error ++ "\n"))

/-! ## shortener.go -/

def UrlKind : String := "shurls"

def respond (code : Int) (w : ResponseWriter) (i : Json) : ResponseWriter :=
  ((w.HeaderSet "Content-type" "application/json").WriteHeader code).Write (.json i)

def respondHtml (code : Int) (w : ResponseWriter) (title body : String) : ResponseWriter :=
  ((w.HeaderSet "Content-type" "text/html").WriteHeader code).Write
    (.text ("<html><head><title>" ++ title ++ "</title></head><body>" ++ body ++ "</body></html>"))

/-- Result of `paramFromUrlOrBody`: `none` is the panic `"Read failed"`. -/
def paramFromUrlOrBody (r : Request) (urlKey : String) : Option (String × Bool) :=
  match r.body with
  | none => none
  | some bodyBytes =>
    if bodyBytes.length ≠ 0 then some (bodyBytes, true)
    else if valuesGet r.query urlKey ≠ "" then some (valuesGet r.query urlKey, true)
    else some ("", false)

def requireAuth (w : ResponseWriter) (ctx : Context) : ResponseWriter × Bool :=
  match ctx.user with
  | none =>
    match ctx.loginURLErr with
    | some err => (httpError w err 500, false)
    | none => ((w.HeaderSet "Location" ctx.loginURL).WriteHeader 302, false)
  | some _ => (w, true)

/-- What a handler leaves behind: the response, the datastore, the panic it ended in if it
did, and for `createBlog` the key and entity of the post its `datastore.Put` stored. -/
structure Outcome where
  w : ResponseWriter
  ds : Datastore
  panicked : Option String
  saved : Option (String × BlogPost)
deriving DecidableEq, Repr

/-- Entities the query `NewQuery(UrlKind).Filter("Short = ", short)` returns. -/
def queryShort (ds : Datastore) (short : String) : List ShortRec :=
  (ds.shurls.filter (fun e => e.2.Short = short)).map (fun e => e.2)

def unshorten (ctx : Context) (ds : Datastore) (w : ResponseWriter) (r : Request) : Outcome :=
  match requireAuth w ctx with
  | (w, false) => ⟨w, ds, none, none⟩
  | (w, true) =>
    match paramFromUrlOrBody r "short" with
    | none => ⟨w, ds, some "Read failed", none⟩
    | some (_, false) => ⟨respond 400 w (.msi_error "No URL given"), ds, none, none⟩
    | some (short, true) =>
      match ctx.faults.urlQuery with
      | some err => ⟨respond 500 w (.msi_error ("Datastore error: " ++ err)), ds, none, none⟩
      | none =>
        let results := queryShort ds short
        let w := if results.length = 0 then respond 404 w (.msi_error "No such entry") else w
        match results with
        | [] => ⟨w, ds, some "runtime error: index out of range", none⟩
        | r0 :: _ => ⟨respond 200 w (.shortRec r0), ds, none, none⟩

def shorten (ctx : Context) (ds : Datastore) (w : ResponseWriter) (r : Request) : Outcome :=
  match requireAuth w ctx with
  | (w, false) => ⟨w, ds, none, none⟩
  | (w, true) =>
    match paramFromUrlOrBody r "url" with
    | none => ⟨w, ds, some "Read failed", none⟩
    | some (_, false) => ⟨respond 400 w (.msi_error "No URL given"), ds, none, none⟩
    | some (url, true) =>
      let key := url
      let hashBytes := sha256Sum (stringBytes url)
      let hashHex := hexEncodeToString hashBytes
      let shortRec : ShortRec := ⟨url, hashHex⟩
      match ctx.faults.urlPut with
      | some err =>
        ⟨respond 500 w (.msi_error ("Failed datastore save: " ++ err)), ds, none, none⟩
      | none =>
        ⟨respond 201 w (.shortRec shortRec),
          { ds with shurls := putEntity key shortRec ds.shurls }, none, none⟩

/-! ## blog.go -/

def BlogKind : String := "blog"

def BlogPost.Validate (p : BlogPost) : String :=
  if p.Title = "" then "No title given"
  else if p.Body = "" then "No body given"
  else if p.Ts.Unix = 0 then "Timestamp was zero"
  else ""

/-- Text the template `htmlErrTemplate` renders for the data `Body = body`; the template is a
constant that parses, and `text/template` inserts the value as it is. -/
def htmlErrTemplate (body : String) : String :=
  "<html>\n<head><title>Error</title></head>\n<body>" ++ body ++ "</body>"

def errRespondJson (w : ResponseWriter) (code : Int) (errMsg : String) : ResponseWriter :=
  respond code w (.msi_error errMsg)

set_option linter.unusedVariables false in
def errRespondHtml (w : ResponseWriter) (code : Int) (errMsg : String) : ResponseWriter :=
  w.Write (.text (htmlErrTemplate errMsg))

def requireMethodJson (r : Request) (w : ResponseWriter) (method : String) :
    ResponseWriter × Bool :=
  let w := w.HeaderSet "Content-type" "application/json"
  if r.Method ≠ method then (errRespondJson w 405 ("Expected http method: " ++ method), false)
  else (w, true)

def requireMethodHtml (r : Request) (w : ResponseWriter) (method : String) :
    ResponseWriter × Bool :=
  let w := w.HeaderSet "Content-type" "text/html"
  if r.Method ≠ method then (errRespondHtml w 405 ("Expected http method: " ++ method), false)
  else (w, true)

/-- Result `(entity, err)` of `datastore.Get(ctx, key, &blogPost)` on kind `BlogKind`: the
entity is left at its zero value when there is an error, and an absent entity is the error
`ErrNoSuchEntity`. -/
def datastoreGetBlog (ctx : Context) (ds : Datastore) (key : String) : BlogPost × Option String :=
  match ctx.faults.blogGet with
  | some err => (BlogPost.zero, some err)
  | none =>
    match getEntity key ds.blog with
    | none => (BlogPost.zero, some ErrNoSuchEntity)
    | some p => (p, none)

def getOneBlog (ctx : Context) (ds : Datastore) (id : String) (w : ResponseWriter) : Outcome :=
  let key := id
  match datastoreGetBlog ctx ds key with
  | (_, some err) => ⟨errRespondHtml w 500 ("Failed datastore get: " ++ err), ds, none, none⟩
  | (blogPost, none) => ⟨w.Write (.markdownBasic blogPost.Body), ds, none, none⟩

/-- Result of `getAndIncBlogCtr`: the pair `(int, error)` it returns and the datastore it
leaves. -/
structure CtrResult where
  value : Int
  err : Option String
  ds : Datastore
deriving DecidableEq, Repr

/-- The counter allocation.  `blogState` starts as `&GlobalBlogState{}`; the read fills it
when the record exists and leaves it untouched on `ErrNoSuchEntity`; the pointer is never
nil, so the branch that would set `GlobalBlogState{1}` is never taken.  The increment is
made on the copy `newBlogState`, which is what is stored; `blogState.Ctr` is what is
returned.  One attempt of the transaction is run: without concurrent writers
`RunInTransaction` does not retry. -/
def getAndIncBlogCtr (ctx : Context) (ds : Datastore) : CtrResult :=
  let blogState : GlobalBlogState := ⟨0⟩
  match ctx.faults.ctrGet with
  | some err => ⟨0, some err, ds⟩
  | none =>
    let blogState : GlobalBlogState :=
      match ds.globalBlogState with
      | some stored => stored
      | none => blogState
    let newBlogState : GlobalBlogState := ⟨wrapInt (blogState.Ctr + 1)⟩
    match ctx.faults.ctrPut with
    | some err => ⟨0, some err, ds⟩
    | none =>
      match ctx.faults.commit with
      | some err => ⟨0, some err, ds⟩
      | none => ⟨blogState.Ctr, none, { ds with globalBlogState := some newBlogState }⟩

/-- The post `createBlog` builds from the request by content type, or the status code and
message of the error response it sends instead. -/
def requestPost (r : Request) : BlogPost × Option (Int × String) :=
  let post := BlogPost.zero
  if r.contentType = "application/x-www-form-urlencoded" then
    match r.parseFormErr with
    | some err => (post, some (400, "Failed form parse: " ++ err))
    | none => ({ post with Body := valuesGet r.form "body", Title := valuesGet r.form "title" }, none)
  else if r.contentType = "application/json" then
    match r.body with
    | none => (post, some (500, "Failed reading request body"))
    | some _ =>
      match r.unmarshal with
      | none => (post, some (400, "Invalid JSON"))
      | some decoded => (decoded, none)
  else
    (post, some (400, "Expected JSON or form encoded request, got " ++ r.contentType))

def createBlog (ctx : Context) (ds : Datastore) (w : ResponseWriter) (r : Request) : Outcome :=
  match requireMethodJson r w "POST" with
  | (w, false) => ⟨w, ds, none, none⟩
  | (w, true) =>
    match requestPost r with
    | (_, some (code, msg)) => ⟨errRespondHtml w code msg, ds, none, none⟩
    | (post, none) =>
      match getAndIncBlogCtr ctx ds with
      | ⟨_, some err, ds⟩ =>
        ⟨errRespondHtml w 500 ("Failed counter increment: " ++ err), ds, none, none⟩
      | ⟨blogCtr, none, ds⟩ =>
        let post := { post with Ts := ctx.now, Id := blogCtr }
        let errMsg := post.Validate
        if errMsg ≠ "" then
          ⟨errRespondHtml w 400 ("Validation failed: " ++ errMsg), ds, none, none⟩
        else
          let key := Itoa post.Id
          match ctx.faults.postPut with
          | some err =>
            ⟨errRespondHtml w 500 ("Failed saving blog post: " ++ err), ds, none, none⟩
          | none =>
            ⟨respondHtml 201 w "Posted OK" "Posted OK",
              { ds with blog := putEntity key post ds.blog }, none, some (key, post)⟩

/-! ## Sequential runs -/

/-- Datastore after `n` successive calls of `getAndIncBlogCtr`, each call being handed the
datastore its predecessor left. -/
def allocStore (ctx : Context) (ds : Datastore) : Nat → Datastore
  | 0 => ds
  | n + 1 => (getAndIncBlogCtr ctx (allocStore ctx ds n)).ds

/-- Values the `n` successive calls return, in call order. -/
def allocValues (ctx : Context) (ds : Datastore) (n : Nat) : List Int :=
  (List.range n).map (fun k => (getAndIncBlogCtr ctx (allocStore ctx ds k)).value)

/-- Errors the `n` successive calls return, in call order. -/
def allocErrs (ctx : Context) (ds : Datastore) (n : Nat) : List (Option String) :=
  (List.range n).map (fun k => (getAndIncBlogCtr ctx (allocStore ctx ds k)).err)

/-- Counter value the datastore holds; a datastore without the counter record counts as
holding the value of `GlobalBlogState{}`. -/
def persistedCtr (ds : Datastore) : Int :=
  match ds.globalBlogState with
  | some stored => stored.Ctr
  | none => 0

/-- One request of a run: its context, the request, the datastore it found and its
outcome. -/
structure Step where
  ctx : Context
  r : Request
  before : Datastore
  out : Outcome
deriving DecidableEq, Repr

/-- Steps of a sequential run of `createBlog` requests, each with its own context and a
fresh response writer, in request order; every request works on the datastore its
predecessor left. -/
def runCreateBlog : List (Context × Request) → Datastore → List Step
  | [], _ => []
  | (ctx, r) :: rest, ds =>
    let out := createBlog ctx ds ResponseWriter.fresh r
    ⟨ctx, r, ds, out⟩ :: runCreateBlog rest out.ds

/-- Datastore a sequential run of `createBlog` requests leaves. -/
def finalStore : List (Context × Request) → Datastore → Datastore
  | [], ds => ds
  | (ctx, r) :: rest, ds => finalStore rest (createBlog ctx ds ResponseWriter.fresh r).ds

/-- Posts a run persisted, with their store keys, in the order they were stored. -/
def savedPosts (steps : List Step) : List (String × BlogPost) :=
  steps.flatMap (fun s => s.out.saved.toList)

/-! ## Vocabulary of the statements -/

/-- Value of a decimal digit character. -/
def digitVal (c : Char) : Nat := c.toNat - 48

/-- Number a sequence of decimal digits writes. -/
def decimalValue (cs : List Char) : Nat := cs.foldl (fun a c => 10 * a + digitVal c) 0

/-- An entity as `shorten` writes it: stored under its input, holding the input and the
address of the input. -/
def WrittenByShorten (e : String × ShortRec) : Prop :=
  e.1 = e.2.Url ∧ e.2.Short = sha256Hex e.2.Url

/-- Inputs whose records the datastore holds. -/
def storedInputs (ds : Datastore) : List String := ds.shurls.map (fun e => e.2.Url)

/-- No two distinct stored inputs have the same address. -/
def NoCollision (ds : Datastore) : Prop :=
  ∀ a ∈ storedInputs ds, ∀ b ∈ storedInputs ds, sha256Hex a = sha256Hex b → a = b

/-- No two distinct inputs among `s` and the stored inputs have the same address. -/
def NoCollisionWith (s : String) (ds : Datastore) : Prop :=
  ∀ a ∈ s :: storedInputs ds, ∀ b ∈ s :: storedInputs ds, sha256Hex a = sha256Hex b → a = b

/-! ## Sample inputs -/

/-- A context in which a user is signed in and no datastore call fails. -/
def sampleCtx : Context := ⟨⟨63000000000, 0⟩, some "admin", "/login", none, Faults.none⟩

/-- A JSON `POST` request whose body decodes to a post with a title and a body. -/
def samplePostRequest : Request :=
  ⟨"POST", "application/json", some "json", [], none, [], some ⟨77, "title", "body", Time.zero⟩⟩

/-- A JSON `POST` request whose body decodes to a post without a title. -/
def untitledPostRequest : Request :=
  ⟨"POST", "application/json", some "json", [], none, [], some ⟨0, "", "body", Time.zero⟩⟩

/-- A request whose body is the given text. -/
def bodyRequest (body : String) : Request := ⟨"POST", "", some body, [], none, [], none⟩

/-- A datastore whose counter record holds 5. -/
def sampleStore : Datastore := ⟨[], some ⟨5⟩, []⟩

/-- A run of three requests: a valid post, a post without title, a valid post. -/
def sampleRun : List (Context × Request) :=
  [(sampleCtx, samplePostRequest), (sampleCtx, untitledPostRequest), (sampleCtx, samplePostRequest)]

/-- The entry `createBlog` stores for `samplePostRequest` when the counter returns `id`. -/
def sampleSaved (id : Int) : String × BlogPost := (Itoa id, ⟨id, "title", "body", sampleCtx.now⟩)

/-- The input of the scenario. -/
def exampleUrl : String := "https://example.com"

/-- A datastore that holds the record `shorten` writes for the input `"a"`. -/
def storedStore : Datastore := ⟨[], none, [("a", ⟨"a", sha256Hex "a"⟩)]⟩

/-- A context in which the read of a blog post fails with the given message. -/
def blogGetFailure (msg : String) : Context :=
  { sampleCtx with faults := { Faults.none with blogGet := some msg } }

/-- A context in which the read of the counter fails with the given message. -/
def ctrGetFailure (msg : String) : Context :=
  { sampleCtx with faults := { Faults.none with ctrGet := some msg } }

/-- A context in which the write of the blog post fails with the given message. -/
def postPutFailure (msg : String) : Context :=
  { sampleCtx with faults := { Faults.none with postPut := some msg } }

/-! # Theorems -/

/-! ## The counter allocation -/

theorem getAndIncBlogCtr_ok (ctx : Context) (ds : Datastore)
    (hGet : ctx.faults.ctrGet = none) (hPut : ctx.faults.ctrPut = none)
    (hCommit : ctx.faults.commit = none) :
    getAndIncBlogCtr ctx ds =
      ⟨persistedCtr ds, none,
        { ds with globalBlogState := some ⟨wrapInt (persistedCtr ds + 1)⟩ }⟩ := by
  unfold getAndIncBlogCtr persistedCtr
  rw [hGet, hPut, hCommit]
  cases ds.globalBlogState <;> rfl

theorem getAndIncBlogCtr_err (ctx : Context) (ds : Datastore)
    (h : (getAndIncBlogCtr ctx ds).err ≠ none) : (getAndIncBlogCtr ctx ds).ds = ds := by
  unfold getAndIncBlogCtr at h ⊢
  cases hGet : ctx.faults.ctrGet <;> cases hPut : ctx.faults.ctrPut <;>
    cases hCommit : ctx.faults.commit <;> simp_all

theorem wrapInt_of_range (i : Int) (lo : -2 ^ 63 ≤ i) (hi : i ≤ maxInt) : wrapInt i = i := by
  unfold wrapInt maxInt at *
  omega

theorem wrapInt_succ (i : Int) : wrapInt (wrapInt i + 1) = wrapInt (i + 1) := by
  unfold wrapInt
  omega

theorem wrapInt_add (i j : Int) : wrapInt (wrapInt i + j) = wrapInt (i + j) := by
  unfold wrapInt
  omega

theorem wrapInt_ne_shift (c d : Int) (h1 : 1 ≤ d) (h2 : d < 2 ^ 64) : c ≠ wrapInt (c + d) := by
  unfold wrapInt
  omega

/-- Claim C1, as the code has it: when the read, the write and the commit succeed,
`getAndIncBlogCtr` returns the prior value (the stored `Ctr`, or 0 when there is no counter
record), which is the value it read and not the value it persisted; the value it persists is
the successor of the prior value as a Go `int`, which is prior + 1 for every prior value
below the largest `int`. -/
theorem getAndIncBlogCtr_returns_prior (ctx : Context) (ds : Datastore)
    (hGet : ctx.faults.ctrGet = none) (hPut : ctx.faults.ctrPut = none)
    (hCommit : ctx.faults.commit = none) :
    (getAndIncBlogCtr ctx ds).err = none ∧
    (getAndIncBlogCtr ctx ds).value = persistedCtr ds ∧
    persistedCtr (getAndIncBlogCtr ctx ds).ds = wrapInt (persistedCtr ds + 1) ∧
    (-2 ^ 63 ≤ persistedCtr ds → persistedCtr ds < maxInt →
      persistedCtr (getAndIncBlogCtr ctx ds).ds = persistedCtr ds + 1 ∧
      (getAndIncBlogCtr ctx ds).value ≠ persistedCtr (getAndIncBlogCtr ctx ds).ds) := by
  rw [getAndIncBlogCtr_ok ctx ds hGet hPut hCommit]
  refine ⟨rfl, rfl, rfl, ?_⟩
  intro lo hi
  have h : wrapInt (persistedCtr ds + 1) = persistedCtr ds + 1 :=
    wrapInt_of_range _ (by omega) (by unfold maxInt at *; omega)
  show wrapInt (persistedCtr ds + 1) = persistedCtr ds + 1 ∧
    persistedCtr ds ≠ wrapInt (persistedCtr ds + 1)
  rw [h]
  exact ⟨rfl, by omega⟩

/-- Claim C1, witness: the allocation on a datastore whose counter record holds 5. -/
theorem getAndIncBlogCtr_returns_prior_witness :
    (getAndIncBlogCtr sampleCtx sampleStore).err = none ∧
    (getAndIncBlogCtr sampleCtx sampleStore).value = persistedCtr sampleStore ∧
    persistedCtr (getAndIncBlogCtr sampleCtx sampleStore).ds
      = wrapInt (persistedCtr sampleStore + 1) ∧
    (-2 ^ 63 ≤ persistedCtr sampleStore → persistedCtr sampleStore < maxInt →
      persistedCtr (getAndIncBlogCtr sampleCtx sampleStore).ds = persistedCtr sampleStore + 1 ∧
      (getAndIncBlogCtr sampleCtx sampleStore).value
        ≠ persistedCtr (getAndIncBlogCtr sampleCtx sampleStore).ds) :=
  getAndIncBlogCtr_returns_prior sampleCtx sampleStore rfl rfl rfl

/-- Claim C1, counterexample: on an empty datastore, and on one whose counter holds 5, every
call succeeding, the value returned is the prior value (0, and 5), while prior + 1 (1, and 6)
is the value persisted. -/
theorem getAndIncBlogCtr_not_new_value :
    (getAndIncBlogCtr sampleCtx Datastore.empty).err = none ∧
    (getAndIncBlogCtr sampleCtx Datastore.empty).value = 0 ∧
    persistedCtr (getAndIncBlogCtr sampleCtx Datastore.empty).ds = 1 ∧
    (getAndIncBlogCtr sampleCtx sampleStore).err = none ∧
    (getAndIncBlogCtr sampleCtx sampleStore).value = 5 ∧
    persistedCtr (getAndIncBlogCtr sampleCtx sampleStore).ds = 6 ∧
    ¬ ((getAndIncBlogCtr sampleCtx sampleStore).value = persistedCtr sampleStore + 1) := by
  decide

/-! ## Successive allocations -/

theorem allocStore_succ (ctx : Context) (ds : Datastore) (n : Nat) :
    allocStore ctx ds (n + 1) = (getAndIncBlogCtr ctx (allocStore ctx ds n)).ds := rfl

/-- After `n` successful calls on a datastore that had no counter record, the record holds
`n` as a Go `int`. -/
theorem allocStore_ctr (ctx : Context) (hGet : ctx.faults.ctrGet = none)
    (hPut : ctx.faults.ctrPut = none) (hCommit : ctx.faults.commit = none)
    (ds : Datastore) (hNone : ds.globalBlogState = none) (n : Nat) :
    persistedCtr (allocStore ctx ds n) = wrapInt n := by
  induction n with
  | zero =>
    show persistedCtr ds = wrapInt ((0 : Nat) : Int)
    unfold persistedCtr
    rw [hNone]
    decide
  | succ n ih =>
    rw [allocStore_succ, getAndIncBlogCtr_ok ctx _ hGet hPut hCommit]
    show wrapInt (persistedCtr (allocStore ctx ds n) + 1) = wrapInt ((n + 1 : Nat) : Int)
    rw [ih, wrapInt_succ]
    push_cast
    rfl

/-- Claim C2, as the code has it: on a datastore without counter record and without
failures, for every N up to 2^63 - 1 the N successive calls of `getAndIncBlogCtr` all succeed
and return 0, 1, ..., N - 1 in this order (the start value is 0), and each call leaves a
persisted counter value that is exactly 1 more than the value before the call. -/
theorem alloc_sequence_from_empty (ctx : Context) (hGet : ctx.faults.ctrGet = none)
    (hPut : ctx.faults.ctrPut = none) (hCommit : ctx.faults.commit = none)
    (ds : Datastore) (hNone : ds.globalBlogState = none)
    (N : Nat) (hN : (N : Int) ≤ maxInt) :
    allocErrs ctx ds N = List.replicate N none ∧
    allocValues ctx ds N = (List.range N).map (fun k : Nat => (k : Int)) ∧
    ∀ k, k < N →
      persistedCtr (allocStore ctx ds (k + 1)) = persistedCtr (allocStore ctx ds k) + 1 := by
  have small : ∀ k : Nat, k ≤ N → wrapInt (k : Int) = k := fun k hk =>
    wrapInt_of_range _ (by omega) (by omega)
  have ctr := allocStore_ctr ctx hGet hPut hCommit ds hNone
  refine ⟨?_, ?_, ?_⟩
  · unfold allocErrs
    rw [List.eq_replicate_iff]
    refine ⟨by simp, ?_⟩
    intro e he
    obtain ⟨k, _, rfl⟩ := List.mem_map.mp he
    rw [getAndIncBlogCtr_ok ctx _ hGet hPut hCommit]
  · unfold allocValues
    apply List.map_congr_left
    intro k hk
    have hk : k < N := List.mem_range.mp hk
    rw [getAndIncBlogCtr_ok ctx _ hGet hPut hCommit]
    show persistedCtr (allocStore ctx ds k) = (k : Int)
    rw [ctr, small k (by omega)]
  · intro k hk
    rw [ctr, ctr, small k (by omega), small (k + 1) (by omega)]
    push_cast
    rfl

/-- Claim C2, witness: three successive calls on the empty datastore return 0, 1, 2. -/
theorem alloc_sequence_from_empty_witness :
    ((3 : Nat) : Int) ≤ maxInt ∧
    allocValues sampleCtx Datastore.empty 3 = [0, 1, 2] ∧
    (allocErrs sampleCtx Datastore.empty 3 = List.replicate 3 none ∧
      allocValues sampleCtx Datastore.empty 3 = (List.range 3).map (fun k : Nat => (k : Int)) ∧
      ∀ k, k < 3 →
        persistedCtr (allocStore sampleCtx Datastore.empty (k + 1))
          = persistedCtr (allocStore sampleCtx Datastore.empty k) + 1) :=
  ⟨by decide, by decide,
    alloc_sequence_from_empty sampleCtx rfl rfl rfl Datastore.empty rfl 3 (by decide)⟩

/-- Claim C2, counterexample: N = 2^63.  After 2^63 - 1 calls on the empty datastore the
counter record holds 2^63 - 1, the largest `int`; the next call succeeds, returns 2^63 - 1
and leaves -2^63 in the record, which is not 1 more than before; the call after it returns
-2^63, which does not continue the sequence. -/
theorem alloc_sequence_wraps :
    persistedCtr (allocStore sampleCtx Datastore.empty 9223372036854775807)
      = 9223372036854775807 ∧
    (getAndIncBlogCtr sampleCtx (allocStore sampleCtx Datastore.empty 9223372036854775807)).err
      = none ∧
    (getAndIncBlogCtr sampleCtx (allocStore sampleCtx Datastore.empty 9223372036854775807)).value
      = 9223372036854775807 ∧
    persistedCtr (allocStore sampleCtx Datastore.empty (9223372036854775807 + 1))
      = -9223372036854775808 ∧
    (getAndIncBlogCtr sampleCtx
      (allocStore sampleCtx Datastore.empty (9223372036854775807 + 1))).value
      = -9223372036854775808 ∧
    ¬ (∀ k, k < 9223372036854775808 →
        persistedCtr (allocStore sampleCtx Datastore.empty (k + 1))
          = persistedCtr (allocStore sampleCtx Datastore.empty k) + 1) := by
  have ctr := allocStore_ctr sampleCtx rfl rfl rfl Datastore.empty rfl
  have ok := fun ds => getAndIncBlogCtr_ok sampleCtx ds rfl rfl rfl
  have before : persistedCtr (allocStore sampleCtx Datastore.empty 9223372036854775807)
      = 9223372036854775807 := by
    rw [ctr]
    decide
  have after : persistedCtr (allocStore sampleCtx Datastore.empty (9223372036854775807 + 1))
      = -9223372036854775808 := by
    rw [ctr]
    decide
  refine ⟨before, ?_, ?_, after, ?_, ?_⟩
  · rw [ok]
  · rw [ok]
    exact before
  · rw [ok]
    exact after
  · intro h
    have step := h 9223372036854775807 (by decide)
    rw [before, after] at step
    exact absurd step (by decide)

/-! ## Decimal keys -/

theorem digitVal_digitChar (m : Nat) (h : m < 10) : digitVal (Nat.digitChar m) = m := by
  interval_cases m <;> rfl

theorem foldl_toDigitsCore (fuel : Nat) : ∀ (n : Nat) (ds : List Char), n < fuel →
    (Nat.toDigitsCore 10 fuel n ds).foldl (fun a c => 10 * a + digitVal c) 0
      = ds.foldl (fun a c => 10 * a + digitVal c) n := by
  induction fuel with
  | zero => intro n ds h; omega
  | succ fuel ih =>
    intro n ds h
    unfold Nat.toDigitsCore
    by_cases h0 : n / 10 = 0
    · simp only [h0, if_true, List.foldl_cons]
      rw [digitVal_digitChar _ (Nat.mod_lt _ (by decide))]
      congr 1
      omega
    · simp only [h0, if_false]
      rw [ih (n / 10) _ (by omega), List.foldl_cons,
        digitVal_digitChar _ (Nat.mod_lt _ (by decide))]
      congr 1
      omega

theorem decimalValue_repr (n : Nat) : decimalValue (Nat.repr n).data = n := by
  unfold decimalValue Nat.repr Nat.toDigits
  rw [List.asString, foldl_toDigitsCore (n + 1) n [] (by omega)]
  rfl

theorem Nat_repr_injective (a b : Nat) (h : Nat.repr a = Nat.repr b) : a = b := by
  have := congrArg (fun s : String => decimalValue s.data) h
  simpa [decimalValue_repr] using this

/-- Distinct integers have distinct decimal renderings. -/
theorem Itoa_injective (i j : Int) (h : Itoa i = Itoa j) : i = j := by
  have minus : ∀ a b : Nat, Nat.repr a ≠ "-" ++ Nat.repr (b + 1) := by
    intro a b hab
    have hv := congrArg (fun s : String => decimalValue s.data) hab
    have hl := congrArg String.length hab
    simp only [String.data_append, decimalValue_repr] at hv
    have hb : decimalValue ("-".data ++ (Nat.repr (b + 1)).data) = b + 1 := by
      have := decimalValue_repr (b + 1)
      unfold decimalValue at this ⊢
      rw [List.foldl_append]
      exact this
    rw [hb] at hv
    rw [String.length_append, hv] at hl
    have : "-".length = 1 := rfl
    omega
  cases i with
  | ofNat a =>
    cases j with
    | ofNat b => exact congrArg Int.ofNat (Nat_repr_injective a b h)
    | negSucc b => exact absurd h (minus a b)
  | negSucc a =>
    cases j with
    | ofNat b => exact absurd h.symm (minus b a)
    | negSucc b =>
      have hd := congrArg String.data h
      simp only [Itoa, String.data_append, List.append_cancel_left_eq] at hd
      have := Nat_repr_injective _ _ (String.ext hd)
      have : a = b := by omega
      rw [this]

/-! ## Upsert and point read -/

theorem getEntity_putEntity_same {α : Type} (key : String) (v : α) (es : List (String × α)) :
    getEntity key (putEntity key v es) = some v := by
  induction es with
  | nil => simp [putEntity, getEntity, List.lookup]
  | cons e es ih =>
    obtain ⟨k, x⟩ := e
    unfold putEntity
    by_cases hk : k = key
    · simp [hk, getEntity, List.lookup]
    · have hne : (key == k) = false := by simpa using fun h => hk h.symm
      simp only [hk, if_false, getEntity, List.lookup, hne]
      exact ih

theorem getEntity_putEntity_other {α : Type} (key other : String) (v : α)
    (es : List (String × α)) (h : other ≠ key) :
    getEntity other (putEntity key v es) = getEntity other es := by
  induction es with
  | nil =>
    have hne : (other == key) = false := by simpa using h
    simp [putEntity, getEntity, List.lookup, hne]
  | cons e es ih =>
    obtain ⟨k, x⟩ := e
    unfold putEntity
    by_cases hk : k = key
    · have hne : (other == key) = false := by simpa using h
      subst hk
      simp [getEntity, List.lookup, hne]
    · simp only [hk, if_false, getEntity, List.lookup]
      cases other == k
      · exact ih
      · rfl

theorem mem_putEntity {α : Type} (key : String) (v : α) (es : List (String × α))
    (e : String × α) (h : e ∈ putEntity key v es) : e = (key, v) ∨ e ∈ es := by
  induction es with
  | nil => simpa [putEntity] using h
  | cons x es ih =>
    obtain ⟨k, y⟩ := x
    unfold putEntity at h
    by_cases hk : k = key
    · simp only [hk, if_true, List.mem_cons] at h
      rcases h with h | h
      · exact Or.inl h
      · exact Or.inr (List.mem_cons_of_mem _ h)
    · simp only [hk, if_false, List.mem_cons] at h
      rcases h with h | h
      · exact Or.inr (h ▸ List.mem_cons_self _ _)
      · rcases ih h with h | h
        · exact Or.inl h
        · exact Or.inr (List.mem_cons_of_mem _ h)

theorem putEntity_mem {α : Type} (key : String) (v : α) (es : List (String × α)) :
    (key, v) ∈ putEntity key v es := by
  induction es with
  | nil => simp [putEntity]
  | cons x es ih =>
    obtain ⟨k, y⟩ := x
    unfold putEntity
    by_cases hk : k = key
    · simp [hk]
    · simp only [hk, if_false]
      exact List.mem_cons_of_mem _ ih

/-! ## One createBlog request -/

theorem getAndIncBlogCtr_of_no_err (ctx : Context) (ds : Datastore)
    (h : (getAndIncBlogCtr ctx ds).err = none) :
    getAndIncBlogCtr ctx ds =
      ⟨persistedCtr ds, none,
        { ds with globalBlogState := some ⟨wrapInt (persistedCtr ds + 1)⟩ }⟩ := by
  have hGet : ctx.faults.ctrGet = none := by
    cases hg : ctx.faults.ctrGet with
    | none => rfl
    | some e => simp [getAndIncBlogCtr, hg] at h
  have hPut : ctx.faults.ctrPut = none := by
    cases hp : ctx.faults.ctrPut with
    | none => rfl
    | some e => simp [getAndIncBlogCtr, hGet, hp] at h
  have hCommit : ctx.faults.commit = none := by
    cases hc : ctx.faults.commit with
    | none => rfl
    | some e => simp [getAndIncBlogCtr, hGet, hPut, hc] at h
  exact getAndIncBlogCtr_ok ctx ds hGet hPut hCommit

/-- The effects of one `createBlog` request on the datastore: nothing, or the allocation
alone, or the allocation and the post stored under the decimal text of the allocated
value. -/
theorem createBlog_effect (ctx : Context) (ds : Datastore) (w : ResponseWriter) (r : Request) :
    ((createBlog ctx ds w r).saved = none ∧
      ((createBlog ctx ds w r).ds = ds ∨
        ((getAndIncBlogCtr ctx ds).err = none ∧
          (createBlog ctx ds w r).ds = (getAndIncBlogCtr ctx ds).ds))) ∨
    (∃ p : BlogPost, (getAndIncBlogCtr ctx ds).err = none ∧
      p.Id = (getAndIncBlogCtr ctx ds).value ∧
      (createBlog ctx ds w r).saved = some (Itoa p.Id, p) ∧
      (createBlog ctx ds w r).ds =
        { (getAndIncBlogCtr ctx ds).ds with
          blog := putEntity (Itoa p.Id) p (getAndIncBlogCtr ctx ds).ds.blog }) := by
  unfold createBlog
  rcases hm : requireMethodJson r w "POST" with ⟨w1, ok⟩
  cases ok with
  | false => exact Or.inl ⟨rfl, Or.inl rfl⟩
  | true =>
    rcases hp : requestPost r with ⟨post, bad⟩
    cases bad with
    | some cm => exact Or.inl ⟨rfl, Or.inl rfl⟩
    | none =>
      rcases hc : getAndIncBlogCtr ctx ds with ⟨v, e, ds1⟩
      cases e with
      | some err =>
        refine Or.inl ⟨rfl, Or.inl ?_⟩
        have := getAndIncBlogCtr_err ctx ds (by rw [hc]; simp)
        rw [hc] at this
        exact this
      | none =>
        dsimp only
        split
        · exact Or.inl ⟨rfl, Or.inr ⟨rfl, rfl⟩⟩
        · cases hpp : ctx.faults.postPut with
          | some err => exact Or.inl ⟨rfl, Or.inr ⟨rfl, rfl⟩⟩
          | none => exact Or.inr ⟨⟨v, post.Title, post.Body, ctx.now⟩, rfl, rfl, rfl, rfl⟩

theorem createBlog_saved (ctx : Context) (ds : Datastore) (w : ResponseWriter) (r : Request)
    (k : String) (p : BlogPost) (h : (createBlog ctx ds w r).saved = some (k, p)) :
    (getAndIncBlogCtr ctx ds).err = none ∧ p.Id = (getAndIncBlogCtr ctx ds).value ∧
    k = Itoa p.Id ∧ (createBlog ctx ds w r).ds.blog = putEntity k p ds.blog ∧
    p.Id = persistedCtr ds ∧
    persistedCtr (createBlog ctx ds w r).ds = wrapInt (persistedCtr ds + 1) := by
  rcases createBlog_effect ctx ds w r with ⟨hn, _⟩ | ⟨q, he, hid, hs, hds⟩
  · rw [hn] at h
    cases h
  · rw [hs] at h
    obtain ⟨rfl, rfl⟩ := Prod.mk.inj (Option.some.inj h)
    have hok := getAndIncBlogCtr_of_no_err ctx ds he
    rw [hok] at hid hds
    rw [hds]
    exact ⟨he, by rw [hok]; exact hid, rfl, rfl, hid, rfl⟩

theorem createBlog_unsaved (ctx : Context) (ds : Datastore) (w : ResponseWriter) (r : Request)
    (h : (createBlog ctx ds w r).saved = none) : (createBlog ctx ds w r).ds.blog = ds.blog := by
  rcases createBlog_effect ctx ds w r with ⟨_, hd | ⟨he, hd⟩⟩ | ⟨q, _, _, hs, _⟩
  · rw [hd]
  · rw [hd, getAndIncBlogCtr_of_no_err ctx ds he]
  · rw [hs] at h
    cases h

theorem createBlog_ctr (ctx : Context) (ds : Datastore) (w : ResponseWriter) (r : Request) :
    persistedCtr (createBlog ctx ds w r).ds = persistedCtr ds ∨
    persistedCtr (createBlog ctx ds w r).ds = wrapInt (persistedCtr ds + 1) := by
  rcases createBlog_effect ctx ds w r with ⟨_, hd | ⟨he, hd⟩⟩ | ⟨q, he, _, _, hd⟩
  · exact Or.inl (by rw [hd])
  · exact Or.inr (by rw [hd, getAndIncBlogCtr_of_no_err ctx ds he]; rfl)
  · exact Or.inr (by rw [hd, getAndIncBlogCtr_of_no_err ctx ds he]; rfl)

/-! ## Runs of createBlog requests -/

theorem savedPosts_cons (s : Step) (rest : List Step) :
    savedPosts (s :: rest) = s.out.saved.toList ++ savedPosts rest := by
  simp [savedPosts]

theorem runCreateBlog_cons (ctx : Context) (r : Request) (rest : List (Context × Request))
    (ds : Datastore) :
    runCreateBlog ((ctx, r) :: rest) ds =
      ⟨ctx, r, ds, createBlog ctx ds ResponseWriter.fresh r⟩ ::
        runCreateBlog rest (createBlog ctx ds ResponseWriter.fresh r).ds := rfl

theorem iterate_wrap (c : Int) (j : Nat) :
    (fun x => wrapInt (x + 1))^[j + 1] c = wrapInt (c + ((j : Int) + 1)) := by
  induction j with
  | zero => simp
  | succ j ih =>
    rw [Function.iterate_succ_apply', ih, wrapInt_succ]
    push_cast
    congr 1
    omega

/-- Every post a run stores is keyed by the decimal text of its id, and its id is the value
the counter reaches from its initial value in fewer increments than the run has requests. -/
theorem saved_id_form : ∀ (run : List (Context × Request)) (ds : Datastore)
    (kp : String × BlogPost), kp ∈ savedPosts (runCreateBlog run ds) →
    kp.1 = Itoa kp.2.Id ∧
    ∃ j : Nat, j < run.length ∧ kp.2.Id = (fun x => wrapInt (x + 1))^[j] (persistedCtr ds) := by
  intro run
  induction run with
  | nil => intro ds kp h; simp [runCreateBlog, savedPosts] at h
  | cons x rest ih =>
    obtain ⟨ctx, r⟩ := x
    intro ds kp h
    rw [runCreateBlog_cons, savedPosts_cons, List.mem_append] at h
    rcases h with h | h
    · have hs : (createBlog ctx ds ResponseWriter.fresh r).saved = some (kp.1, kp.2) := by
        simpa [Option.mem_toList] using h
      obtain ⟨_, _, hk, _, hid, _⟩ := createBlog_saved ctx ds _ r kp.1 kp.2 hs
      exact ⟨hk, 0, by simp, by simpa using hid⟩
    · obtain ⟨hk, j, hj, hid⟩ := ih _ kp h
      refine ⟨hk, ?_⟩
      rcases createBlog_ctr ctx ds ResponseWriter.fresh r with hc | hc
      · rw [hc] at hid
        exact ⟨j, by simp; omega, hid⟩
      · rw [hc] at hid
        exact ⟨j + 1, by simp; omega, by rw [Function.iterate_succ_apply]; exact hid⟩

/-- In a run of at most 2^64 requests no two stored posts share an id or a key. -/
theorem saved_pairwise : ∀ (run : List (Context × Request)) (ds : Datastore),
    (run.length : Int) ≤ 2 ^ 64 →
    (savedPosts (runCreateBlog run ds)).Pairwise (fun a b => a.2.Id ≠ b.2.Id ∧ a.1 ≠ b.1) := by
  intro run
  induction run with
  | nil => intro ds _; simp [runCreateBlog, savedPosts]
  | cons x rest ih =>
    obtain ⟨ctx, r⟩ := x
    intro ds hlen
    have hlen2 : (rest.length : Int) + 1 ≤ 2 ^ 64 := by
      simpa using hlen
    rw [runCreateBlog_cons, savedPosts_cons, List.pairwise_append]
    refine ⟨?_, ih _ (by omega), ?_⟩
    · cases (createBlog ctx ds ResponseWriter.fresh r).saved <;> simp
    · intro a ha b hb
      have hs : (createBlog ctx ds ResponseWriter.fresh r).saved = some (a.1, a.2) := by
        simpa [Option.mem_toList] using ha
      obtain ⟨_, _, hka, _, hida, hctr⟩ := createBlog_saved ctx ds _ r a.1 a.2 hs
      obtain ⟨hkb, j, hj, hidb⟩ := saved_id_form rest _ b hb
      rw [hctr, ← Function.iterate_succ_apply (fun x => wrapInt (x + 1)), iterate_wrap] at hidb
      have hne : a.2.Id ≠ b.2.Id := by
        rw [hida, hidb]
        exact wrapInt_ne_shift _ _ (by omega) (by omega)
      refine ⟨hne, ?_⟩
      rw [hka, hkb]
      exact fun h => hne (Itoa_injective _ _ h)

/-- A run leaves alone every key that none of its stored posts has. -/
theorem finalStore_other : ∀ (run : List (Context × Request)) (ds : Datastore) (key : String),
    (∀ kp ∈ savedPosts (runCreateBlog run ds), kp.1 ≠ key) →
    getEntity key (finalStore run ds).blog = getEntity key ds.blog := by
  intro run
  induction run with
  | nil => intro ds key _; rfl
  | cons x rest ih =>
    obtain ⟨ctx, r⟩ := x
    intro ds key h
    rw [runCreateBlog_cons, savedPosts_cons] at h
    show getEntity key (finalStore rest (createBlog ctx ds ResponseWriter.fresh r).ds).blog = _
    rw [ih _ key (fun kp hkp => h kp (List.mem_append_right _ hkp))]
    cases hs : (createBlog ctx ds ResponseWriter.fresh r).saved with
    | none => rw [createBlog_unsaved ctx ds _ r hs]
    | some kp =>
      obtain ⟨k, p⟩ := kp
      obtain ⟨_, _, _, hblog, _, _⟩ := createBlog_saved ctx ds _ r k p hs
      rw [hblog]
      apply getEntity_putEntity_other
      have := h (k, p) (List.mem_append_left _ (by rw [hs]; simp))
      exact fun e => this e.symm

/-- In a run of at most 2^64 requests every stored post is still in the datastore, under its
key, when the run ends. -/
theorem saved_survive : ∀ (run : List (Context × Request)) (ds : Datastore),
    (run.length : Int) ≤ 2 ^ 64 →
    ∀ kp ∈ savedPosts (runCreateBlog run ds),
      getEntity kp.1 (finalStore run ds).blog = some kp.2 := by
  intro run
  induction run with
  | nil => intro ds _ kp h; simp [runCreateBlog, savedPosts] at h
  | cons x rest ih =>
    obtain ⟨ctx, r⟩ := x
    intro ds hlen kp hkp
    have hlen2 : (rest.length : Int) + 1 ≤ 2 ^ 64 := by
      simpa using hlen
    have hpair := saved_pairwise ((ctx, r) :: rest) ds hlen
    rw [runCreateBlog_cons, savedPosts_cons] at hkp hpair
    show getEntity kp.1 (finalStore rest (createBlog ctx ds ResponseWriter.fresh r).ds).blog = _
    rcases List.mem_append.mp hkp with h | h
    · have hs : (createBlog ctx ds ResponseWriter.fresh r).saved = some (kp.1, kp.2) := by
        simpa [Option.mem_toList] using h
      obtain ⟨_, _, _, hblog, _, _⟩ := createBlog_saved ctx ds _ r kp.1 kp.2 hs
      rw [finalStore_other rest _ kp.1
        (fun b hb => ((List.pairwise_append.mp hpair).2.2 kp h b hb).2.symm), hblog]
      exact getEntity_putEntity_same _ _ _
    · exact ih _ (by omega) kp h

theorem step_mem : ∀ (run : List (Context × Request)) (ds : Datastore) (s : Step),
    s ∈ runCreateBlog run ds → s.out = createBlog s.ctx s.before ResponseWriter.fresh s.r := by
  intro run
  induction run with
  | nil => intro ds s h; simp [runCreateBlog] at h
  | cons x rest ih =>
    obtain ⟨ctx, r⟩ := x
    intro ds s h
    rw [runCreateBlog_cons, List.mem_cons] at h
    rcases h with h | h
    · rw [h]
    · exact ih _ s h

/-- Claim C3, as the code has it: in every sequential run of at most 2^64 `createBlog`
requests over any datastore, whatever the requests contain, every post that is persisted has
the `Id` that `getAndIncBlogCtr` returned in the same request and is stored under the key
`strconv.Itoa(Id)`; no two persisted posts share an `Id` or a store key; and every persisted
post is still stored under its key when the run ends, so none was overwritten. -/
theorem createBlog_ids_unique (run : List (Context × Request)) (ds : Datastore)
    (hlen : (run.length : Int) ≤ 2 ^ 64) :
    (∀ s ∈ runCreateBlog run ds, ∀ (k : String) (p : BlogPost), s.out.saved = some (k, p) →
      (getAndIncBlogCtr s.ctx s.before).err = none ∧
      p.Id = (getAndIncBlogCtr s.ctx s.before).value ∧
      k = Itoa p.Id ∧
      s.out.ds.blog = putEntity k p s.before.blog) ∧
    (savedPosts (runCreateBlog run ds)).Pairwise (fun a b => a.2.Id ≠ b.2.Id ∧ a.1 ≠ b.1) ∧
    (∀ kp ∈ savedPosts (runCreateBlog run ds),
      getEntity kp.1 (finalStore run ds).blog = some kp.2) := by
  refine ⟨?_, saved_pairwise run ds hlen, saved_survive run ds hlen⟩
  intro s hs k p hsaved
  rw [step_mem run ds s hs] at hsaved ⊢
  obtain ⟨he, hid, hk, hblog, _, _⟩ := createBlog_saved _ _ _ _ k p hsaved
  exact ⟨he, hid, hk, hblog⟩

/-- Claim C3, witness: a run of three requests on the empty datastore, the second of which
fails validation; the posts stored are those of ids 0 and 2. -/
theorem createBlog_ids_unique_witness :
    (sampleRun.length : Int) ≤ 2 ^ 64 ∧
    savedPosts (runCreateBlog sampleRun Datastore.empty) = [sampleSaved 0, sampleSaved 2] ∧
    ((∀ s ∈ runCreateBlog sampleRun Datastore.empty, ∀ (k : String) (p : BlogPost),
      s.out.saved = some (k, p) →
        (getAndIncBlogCtr s.ctx s.before).err = none ∧
        p.Id = (getAndIncBlogCtr s.ctx s.before).value ∧
        k = Itoa p.Id ∧
        s.out.ds.blog = putEntity k p s.before.blog) ∧
      (savedPosts (runCreateBlog sampleRun Datastore.empty)).Pairwise
        (fun a b => a.2.Id ≠ b.2.Id ∧ a.1 ≠ b.1) ∧
      (∀ kp ∈ savedPosts (runCreateBlog sampleRun Datastore.empty),
        getEntity kp.1 (finalStore sampleRun Datastore.empty).blog = some kp.2)) :=
  ⟨by decide, by decide, createBlog_ids_unique sampleRun Datastore.empty (by decide)⟩

theorem createBlog_sample (ds : Datastore) :
    (createBlog sampleCtx ds ResponseWriter.fresh samplePostRequest).saved
      = some (sampleSaved (persistedCtr ds)) ∧
    persistedCtr (createBlog sampleCtx ds ResponseWriter.fresh samplePostRequest).ds
      = wrapInt (persistedCtr ds + 1) := by
  have hm : requireMethodJson samplePostRequest ResponseWriter.fresh "POST"
      = (ResponseWriter.fresh.HeaderSet "Content-type" "application/json", true) := by decide
  have hp : requestPost samplePostRequest = (⟨77, "title", "body", Time.zero⟩, none) := by decide
  have hv : ∀ id : Int, (BlogPost.mk id "title" "body" sampleCtx.now).Validate = "" := by
    intro id
    rfl
  unfold createBlog
  rw [hm, hp, getAndIncBlogCtr_ok sampleCtx ds rfl rfl rfl]
  simp only [hv]
  exact ⟨rfl, rfl⟩

/-- Posts stored by a run of `n` copies of `samplePostRequest`: their ids are the `n`
successive counter values. -/
theorem savedPosts_replicate : ∀ (n : Nat) (ds : Datastore),
    wrapInt (persistedCtr ds) = persistedCtr ds →
    savedPosts (runCreateBlog (List.replicate n (sampleCtx, samplePostRequest)) ds)
      = (List.range n).map (fun j : Nat => sampleSaved (wrapInt (persistedCtr ds + j))) := by
  intro n
  induction n with
  | zero => intro ds _; rfl
  | succ n ih =>
    intro ds hds
    obtain ⟨hsaved, hctr⟩ := createBlog_sample ds
    rw [List.replicate_succ, runCreateBlog_cons, savedPosts_cons, hsaved,
      ih _ (by rw [hctr]; unfold wrapInt; omega), hctr, List.range_succ_eq_map, List.map_cons,
      List.map_map]
    simp only [Option.toList, List.singleton_append, Nat.cast_zero, add_zero, hds]
    congr 1
    apply List.map_congr_left
    intro j _
    simp only [Function.comp, Nat.succ_eq_add_one, Nat.cast_add, Nat.cast_one]
    rw [wrapInt_add]
    congr 2
    omega

/-- Claim C3, counterexample: a run of 2^64 + 1 valid requests on the empty datastore.  The
first request and the last one both store a post with `Id` 0 under the key `"0"`, so two
persisted posts share an id and a key. -/
theorem createBlog_ids_repeat :
    (savedPosts (runCreateBlog
        (List.replicate 18446744073709551617 (sampleCtx, samplePostRequest))
        Datastore.empty))[0]? = some ("0", ⟨0, "title", "body", sampleCtx.now⟩) ∧
    (savedPosts (runCreateBlog
        (List.replicate 18446744073709551617 (sampleCtx, samplePostRequest))
        Datastore.empty))[18446744073709551616]?
      = some ("0", ⟨0, "title", "body", sampleCtx.now⟩) ∧
    ¬ (savedPosts (runCreateBlog
        (List.replicate 18446744073709551617 (sampleCtx, samplePostRequest))
        Datastore.empty)).Pairwise (fun a b => a.2.Id ≠ b.2.Id ∧ a.1 ≠ b.1) := by
  rw [savedPosts_replicate _ _ (by decide)]
  refine ⟨?_, ?_, ?_⟩
  · rw [List.getElem?_map, List.getElem?_range (by decide)]
    decide
  · rw [List.getElem?_map, List.getElem?_range (by decide)]
    decide
  · rw [List.pairwise_map, List.pairwise_iff_getElem]
    intro h
    have h0 := h 0 18446744073709551616 (by rw [List.length_range]; decide)
      (by rw [List.length_range]; decide) (by decide)
    rw [List.getElem_range, List.getElem_range] at h0
    exact h0.1 (by decide)

/-! ## The shortener -/

theorem requireAuth_ok (w : ResponseWriter) (ctx : Context) (h : ctx.user ≠ none) :
    requireAuth w ctx = (w, true) := by
  unfold requireAuth
  cases hu : ctx.user with
  | none => exact absurd hu h
  | some u => rfl

theorem shorten_ok (ctx : Context) (ds : Datastore) (w : ResponseWriter) (r : Request)
    (url : String) (hUser : ctx.user ≠ none)
    (hParam : paramFromUrlOrBody r "url" = some (url, true))
    (hPut : ctx.faults.urlPut = none) :
    shorten ctx ds w r =
      ⟨respond 201 w (.shortRec ⟨url, sha256Hex url⟩),
        { ds with shurls := putEntity url ⟨url, sha256Hex url⟩ ds.shurls }, none, none⟩ := by
  unfold shorten
  rw [requireAuth_ok w ctx hUser]
  simp only [hParam, hPut]
  rfl

theorem unshorten_ok (ctx : Context) (ds : Datastore) (w : ResponseWriter) (r : Request)
    (short : String) (hUser : ctx.user ≠ none)
    (hParam : paramFromUrlOrBody r "short" = some (short, true))
    (hQuery : ctx.faults.urlQuery = none) :
    unshorten ctx ds w r =
      match queryShort ds short with
      | [] => ⟨respond 404 w (.msi_error "No such entry"), ds,
          some "runtime error: index out of range", none⟩
      | r0 :: _ => ⟨respond 200 w (.shortRec r0), ds, none, none⟩ := by
  unfold unshorten
  rw [requireAuth_ok w ctx hUser]
  simp only [hParam, hQuery]
  cases queryShort ds short <;> simp

theorem sha256Round_length (s : List Nat) (kw : Nat × Nat) :
    (sha256Round s kw).length = s.length := by
  unfold sha256Round
  split <;> rfl

theorem foldl_sha256Round_length (kws : List (Nat × Nat)) : ∀ s : List Nat,
    (kws.foldl sha256Round s).length = s.length := by
  induction kws with
  | nil => intro s; rfl
  | cons kw kws ih => intro s; rw [List.foldl_cons, ih, sha256Round_length]

theorem sha256Block_length (h block : List Nat) : (sha256Block h block).length = h.length := by
  unfold sha256Block
  rw [List.length_zipWith, foldl_sha256Round_length]
  simp

theorem sha256State_length (msg : List Nat) : (sha256State msg).length = 8 := by
  unfold sha256State
  have key : ∀ (idx : List Nat) (p h : List Nat),
      (idx.foldl (fun h i => sha256Block h ((p.drop (64 * i)).take 64)) h).length
        = h.length := by
    intro idx
    induction idx with
    | nil => intro p h; rfl
    | cons i idx ih => intro p h; rw [List.foldl_cons, ih, sha256Block_length]
  rw [key]
  rfl

theorem sha256Sum_length (msg : List Nat) : (sha256Sum msg).length = 32 := by
  unfold sha256Sum
  have key : ∀ st : List Nat, (st.flatMap wordBytes).length = 4 * st.length := by
    intro st
    induction st with
    | nil => rfl
    | cons w st ih =>
      rw [List.flatMap_cons, List.length_append, ih]
      simp [wordBytes]
      omega
  rw [key, sha256State_length]

theorem sha256Sum_lt (msg : List Nat) : ∀ x ∈ sha256Sum msg, x < 256 := by
  intro x hx
  unfold sha256Sum at hx
  obtain ⟨w, _, hw⟩ := List.mem_flatMap.mp hx
  simp only [wordBytes, List.mem_cons, List.mem_singleton, List.not_mem_nil, or_false] at hw
  rcases hw with h | h | h | h <;> rw [h] <;> exact Nat.mod_lt _ (by decide)

theorem hexEncodeToString_length (bs : List Nat) :
    (hexEncodeToString bs).length = 2 * bs.length := by
  unfold hexEncodeToString
  show (bs.flatMap (fun b => [hexDigit (b / 16), hexDigit (b % 16)])).length = 2 * bs.length
  induction bs with
  | nil => rfl
  | cons b bs ih =>
    rw [List.flatMap_cons, List.length_append, ih]
    simp
    omega

/-- Every address has 64 characters. -/
theorem sha256Hex_length (s : String) : (sha256Hex s).length = 64 := by
  unfold sha256Hex
  rw [hexEncodeToString_length, sha256Sum_length]

theorem bytes_of_lt (bs : List Nat) (h : ∀ x ∈ bs, x < 256) :
    ∃ l : List (Fin 256), l.map Fin.val = bs := by
  induction bs with
  | nil => exact ⟨[], rfl⟩
  | cons b bs ih =>
    obtain ⟨l, hl⟩ := ih (fun x hx => h x (List.mem_cons_of_mem _ hx))
    exact ⟨⟨b, h b (List.mem_cons_self _ _)⟩ :: l, by simp [hl]⟩

/-- Two distinct non-empty inputs have the same address: there are infinitely many inputs
and finitely many addresses. -/
theorem sha256Hex_collision :
    ∃ a b : String, a ≠ "" ∧ b ≠ "" ∧ a ≠ b ∧ sha256Hex a = sha256Hex b := by
  have hinf : {s : String | s ≠ ""}.Infinite := by
    apply Set.infinite_of_injective_forall_mem
      (f := fun n : Nat => String.mk (List.replicate (n + 1) 'a'))
    · intro n m h
      have := congrArg String.length h
      simpa [String.length] using this
    · intro n h
      have := congrArg String.length h
      simp [String.length] at this
  have hfin : ((fun l : List (Fin 256) => hexEncodeToString (l.map Fin.val)) ''
      {l : List (Fin 256) | l.length ≤ 32}).Finite :=
    (List.finite_length_le (Fin 256) 32).image _
  have hmaps : Set.MapsTo sha256Hex {s : String | s ≠ ""}
      ((fun l : List (Fin 256) => hexEncodeToString (l.map Fin.val)) ''
        {l : List (Fin 256) | l.length ≤ 32}) := by
    intro s _
    obtain ⟨l, hl⟩ := bytes_of_lt _ (sha256Sum_lt (stringBytes s))
    refine ⟨l, ?_, ?_⟩
    · have := congrArg List.length hl
      rw [List.length_map, sha256Sum_length] at this
      show l.length ≤ 32
      omega
    · show hexEncodeToString (l.map Fin.val) = sha256Hex s
      rw [hl]
      rfl
  obtain ⟨a, ha, b, hb, hne, heq⟩ := hinf.exists_ne_map_eq_of_mapsTo hmaps hfin
  exact ⟨a, b, ha, hb, hne, heq⟩

theorem respond_fields (code : Int) (w : ResponseWriter) (i : Json) (h : w.status = none) :
    (respond code w i).status = some code ∧
    (respond code w i).body = w.body ++ [.json i] ∧
    (respond code w i).header = (w.HeaderSet "Content-type" "application/json").header := by
  simp [respond, ResponseWriter.HeaderSet, ResponseWriter.WriteHeader, ResponseWriter.Write, h]

theorem paramFromUrlOrBody_body (body key : String) (h : body ≠ "") :
    paramFromUrlOrBody (bodyRequest body) key = some (body, true) := by
  have hlen : body.length ≠ 0 := by
    intro h0
    apply h
    cases body with
    | mk d =>
      have : d = [] := by simpa [String.length] using h0
      rw [this]
  simp [paramFromUrlOrBody, bodyRequest, hlen]

theorem sha256Hex_ne_empty (s : String) : sha256Hex s ≠ "" := by
  intro h
  have := sha256Hex_length s
  rw [h] at this
  cases this

/-- Claim C4, as the code has it: for every input string `s` and every datastore that holds
only records written by `shorten` and in which no two distinct inputs among the stored inputs
and `s` have the same address: `shorten(s)` succeeds, answering 201 with the record of `s` and
storing it, and `unshorten` called then with the address `hex(SHA-256(s))` answers with
status 200 and writes to the response body the record whose `Url` is `s` and whose `Short` is
that address; it does not panic and leaves the datastore as it found it. -/
theorem unshorten_after_shorten (ctx1 ctx2 : Context) (ds : Datastore)
    (w1 w2 : ResponseWriter) (r1 r2 : Request) (s : String)
    (hStore : ∀ e ∈ ds.shurls, WrittenByShorten e)
    (hNoCollision : NoCollisionWith s ds)
    (hUser1 : ctx1.user ≠ none) (hParam1 : paramFromUrlOrBody r1 "url" = some (s, true))
    (hPut : ctx1.faults.urlPut = none) (hFresh1 : w1.status = none)
    (hUser2 : ctx2.user ≠ none)
    (hParam2 : paramFromUrlOrBody r2 "short" = some (sha256Hex s, true))
    (hQuery : ctx2.faults.urlQuery = none) (hFresh2 : w2.status = none) :
    (shorten ctx1 ds w1 r1).w.status = some 201 ∧
    (shorten ctx1 ds w1 r1).w.body = w1.body ++ [.json (.shortRec ⟨s, sha256Hex s⟩)] ∧
    (shorten ctx1 ds w1 r1).panicked = none ∧
    getEntity s (shorten ctx1 ds w1 r1).ds.shurls = some ⟨s, sha256Hex s⟩ ∧
    (unshorten ctx2 (shorten ctx1 ds w1 r1).ds w2 r2).w.status = some 200 ∧
    (unshorten ctx2 (shorten ctx1 ds w1 r1).ds w2 r2).w.body
      = w2.body ++ [.json (.shortRec ⟨s, sha256Hex s⟩)] ∧
    (unshorten ctx2 (shorten ctx1 ds w1 r1).ds w2 r2).w.header
      = (w2.HeaderSet "Content-type" "application/json").header ∧
    (unshorten ctx2 (shorten ctx1 ds w1 r1).ds w2 r2).panicked = none ∧
    (unshorten ctx2 (shorten ctx1 ds w1 r1).ds w2 r2).ds = (shorten ctx1 ds w1 r1).ds := by
  rw [shorten_ok ctx1 ds w1 r1 s hUser1 hParam1 hPut]
  obtain ⟨hs1, hb1, _⟩ := respond_fields 201 w1 (.shortRec ⟨s, sha256Hex s⟩) hFresh1
  refine ⟨hs1, hb1, rfl, getEntity_putEntity_same _ _ _, ?_⟩
  have hnew : ((s, (⟨s, sha256Hex s⟩ : ShortRec)) : String × ShortRec)
      ∈ putEntity s ⟨s, sha256Hex s⟩ ds.shurls := putEntity_mem _ _ _
  have hall : ∀ x ∈ queryShort
      { ds with shurls := putEntity s ⟨s, sha256Hex s⟩ ds.shurls } (sha256Hex s),
      x = ⟨s, sha256Hex s⟩ := by
    intro x hx
    unfold queryShort at hx
    obtain ⟨e, he, rfl⟩ := List.mem_map.mp hx
    obtain ⟨hmem, hshort⟩ := List.mem_filter.mp he
    have hshort : e.2.Short = sha256Hex s := by simpa using hshort
    rcases mem_putEntity _ _ _ e hmem with h | h
    · rw [h]
    · have hw := (hStore e h).2
      have hin : e.2.Url ∈ s :: storedInputs ds :=
        List.mem_cons_of_mem _ (List.mem_map.mpr ⟨e, h, rfl⟩)
      have hurl : e.2.Url = s :=
        hNoCollision _ hin s (List.mem_cons_self _ _) (by rw [← hw, hshort])
      cases hrec : e.2 with
      | mk u sh =>
        rw [hrec] at hurl hshort
        simp only at hurl hshort
        rw [hurl, hshort]
  have hne : queryShort
      { ds with shurls := putEntity s ⟨s, sha256Hex s⟩ ds.shurls } (sha256Hex s) ≠ [] := by
    intro hnil
    have : (⟨s, sha256Hex s⟩ : ShortRec) ∈ queryShort
        { ds with shurls := putEntity s ⟨s, sha256Hex s⟩ ds.shurls } (sha256Hex s) := by
      unfold queryShort
      exact List.mem_map.mpr ⟨_, List.mem_filter.mpr ⟨hnew, by simp⟩, rfl⟩
    rw [hnil] at this
    cases this
  rw [unshorten_ok ctx2 _ w2 r2 (sha256Hex s) hUser2 hParam2 hQuery]
  obtain ⟨hs2, hb2, hh2⟩ := respond_fields 200 w2 (.shortRec ⟨s, sha256Hex s⟩) hFresh2
  cases hq : queryShort
      { ds with shurls := putEntity s ⟨s, sha256Hex s⟩ ds.shurls } (sha256Hex s) with
  | nil => exact absurd hq hne
  | cons r0 rest =>
    have := hall r0 (by rw [hq]; exact List.mem_cons_self _ _)
    rw [this]
    exact ⟨hs2, hb2, hh2, rfl, rfl⟩

/-- Claim C4, witness: `shorten` of `https://example.com` on a datastore that already holds
the record of another input, then `unshorten` with the SHA-256 hex digest of the input: the
body of the response is the record of `https://example.com`. -/
theorem unshorten_after_shorten_witness :
    sha256Hex exampleUrl = "100680ad546ce6a577f42f52df33b4cfdca756859e664b8d7de329b150d09ce9" ∧
    (unshorten sampleCtx
        (shorten sampleCtx storedStore ResponseWriter.fresh (bodyRequest exampleUrl)).ds
        ResponseWriter.fresh
        (bodyRequest "100680ad546ce6a577f42f52df33b4cfdca756859e664b8d7de329b150d09ce9")).w
      = ⟨[("Content-Type", "application/json")], some 200,
          [.json (.shortRec ⟨"https://example.com",
            "100680ad546ce6a577f42f52df33b4cfdca756859e664b8d7de329b150d09ce9"⟩)]⟩ ∧
    ((shorten sampleCtx storedStore ResponseWriter.fresh (bodyRequest exampleUrl)).w.status
        = some 201 ∧
      (shorten sampleCtx storedStore ResponseWriter.fresh (bodyRequest exampleUrl)).w.body
        = ResponseWriter.fresh.body ++ [.json (.shortRec ⟨exampleUrl, sha256Hex exampleUrl⟩)] ∧
      (shorten sampleCtx storedStore ResponseWriter.fresh (bodyRequest exampleUrl)).panicked
        = none ∧
      getEntity exampleUrl
        (shorten sampleCtx storedStore ResponseWriter.fresh (bodyRequest exampleUrl)).ds.shurls
        = some ⟨exampleUrl, sha256Hex exampleUrl⟩ ∧
      (unshorten sampleCtx
        (shorten sampleCtx storedStore ResponseWriter.fresh (bodyRequest exampleUrl)).ds
        ResponseWriter.fresh (bodyRequest (sha256Hex exampleUrl))).w.status = some 200 ∧
      (unshorten sampleCtx
        (shorten sampleCtx storedStore ResponseWriter.fresh (bodyRequest exampleUrl)).ds
        ResponseWriter.fresh (bodyRequest (sha256Hex exampleUrl))).w.body
        = ResponseWriter.fresh.body ++ [.json (.shortRec ⟨exampleUrl, sha256Hex exampleUrl⟩)] ∧
      (unshorten sampleCtx
        (shorten sampleCtx storedStore ResponseWriter.fresh (bodyRequest exampleUrl)).ds
        ResponseWriter.fresh (bodyRequest (sha256Hex exampleUrl))).w.header
        = (ResponseWriter.fresh.HeaderSet "Content-type" "application/json").header ∧
      (unshorten sampleCtx
        (shorten sampleCtx storedStore ResponseWriter.fresh (bodyRequest exampleUrl)).ds
        ResponseWriter.fresh (bodyRequest (sha256Hex exampleUrl))).panicked = none ∧
      (unshorten sampleCtx
        (shorten sampleCtx storedStore ResponseWriter.fresh (bodyRequest exampleUrl)).ds
        ResponseWriter.fresh (bodyRequest (sha256Hex exampleUrl))).ds
        = (shorten sampleCtx storedStore ResponseWriter.fresh (bodyRequest exampleUrl)).ds) :=
  ⟨by decide!, by decide!,
    unshorten_after_shorten sampleCtx sampleCtx storedStore ResponseWriter.fresh
      ResponseWriter.fresh (bodyRequest exampleUrl) (bodyRequest (sha256Hex exampleUrl))
      exampleUrl
      (by intro e he
          have : e = ("a", ⟨"a", sha256Hex "a"⟩) := by simpa [storedStore] using he
          rw [this]
          exact ⟨rfl, rfl⟩)
      (by unfold NoCollisionWith; decide!)
      (by decide) (by decide) rfl rfl
      (by decide) (by decide!) rfl rfl⟩

/-- Claim C4, counterexample: the claim as worded, with the no-collision assumption on the
datastore before `shorten(s)`, does not hold for every input and every datastore.  There are
infinitely many inputs and finitely many addresses, so two distinct inputs `a` and `b` have
the same address; on the datastore that holds only the record of `a`, which `shorten` wrote
and in which no two stored inputs collide, `shorten(b)` followed by `unshorten` with the
address of `b` answers with the record of `a`, whose `Url` is not `b`. -/
theorem unshorten_after_shorten_collision :
    ¬ ∀ (ds : Datastore) (s : String), s ≠ "" →
        (∀ e ∈ ds.shurls, WrittenByShorten e) → NoCollision ds →
        ∃ rec : ShortRec, rec.Url = s ∧
          (unshorten sampleCtx
            (shorten sampleCtx ds ResponseWriter.fresh (bodyRequest s)).ds
            ResponseWriter.fresh (bodyRequest (sha256Hex s))).w.body
            = [.json (.shortRec rec)] := by
  intro claim
  obtain ⟨a, b, _, hb, hab, hcol⟩ := sha256Hex_collision
  have hWritten : ∀ e ∈ (Datastore.mk [] none [(a, ⟨a, sha256Hex a⟩)]).shurls,
      WrittenByShorten e := by
    intro e he
    have : e = (a, ⟨a, sha256Hex a⟩) := by simpa using he
    rw [this]
    exact ⟨rfl, rfl⟩
  have hNo : NoCollision (Datastore.mk [] none [(a, ⟨a, sha256Hex a⟩)]) := by
    intro x hx y hy _
    have hx' : x = a := by simpa [storedInputs] using hx
    have hy' : y = a := by simpa [storedInputs] using hy
    rw [hx', hy']
  obtain ⟨rec, hurl, hbody⟩ := claim ⟨[], none, [(a, ⟨a, sha256Hex a⟩)]⟩ b hb hWritten hNo
  rw [shorten_ok sampleCtx _ _ _ b (by decide) (paramFromUrlOrBody_body b "url" hb) rfl,
    unshorten_ok sampleCtx _ _ _ (sha256Hex b) (by decide)
      (paramFromUrlOrBody_body _ "short" (sha256Hex_ne_empty b)) rfl] at hbody
  have hq : queryShort
      { (Datastore.mk [] none [(a, ⟨a, sha256Hex a⟩)]) with
        shurls := putEntity b ⟨b, sha256Hex b⟩ [(a, ⟨a, sha256Hex a⟩)] } (sha256Hex b)
      = [⟨a, sha256Hex a⟩, ⟨b, sha256Hex b⟩] := by
    simp [queryShort, putEntity, hab, hcol]
  rw [hq] at hbody
  have hrec : rec = ⟨a, sha256Hex a⟩ := by
    have := (respond_fields 200 ResponseWriter.fresh (.shortRec ⟨a, sha256Hex a⟩) rfl).2.1
    rw [this] at hbody
    simpa [ResponseWriter.fresh] using hbody.symm
  rw [hrec] at hurl
  exact hab hurl

/-- Claim C5, as the code has it: for every input `url`, a successful `shorten` computes
the address `hex(SHA-256(url))` and persists the record with `Url = url` and
`Short = address` under the store key `url`: the key of the written entity is the
record's `Url` field, the input itself, and the address is kept in the `Short` field only.
Nothing else in the datastore changes. -/
theorem shorten_key_is_url (ctx : Context) (ds : Datastore) (w : ResponseWriter)
    (r : Request) (url : String) (hUser : ctx.user ≠ none)
    (hParam : paramFromUrlOrBody r "url" = some (url, true))
    (hPut : ctx.faults.urlPut = none) :
    (shorten ctx ds w r).ds.shurls = putEntity url ⟨url, sha256Hex url⟩ ds.shurls ∧
    getEntity url (shorten ctx ds w r).ds.shurls = some ⟨url, sha256Hex url⟩ ∧
    (∀ other : String, other ≠ url →
      getEntity other (shorten ctx ds w r).ds.shurls = getEntity other ds.shurls) ∧
    (shorten ctx ds w r).ds.blog = ds.blog ∧
    (shorten ctx ds w r).ds.globalBlogState = ds.globalBlogState ∧
    (shorten ctx ds w r).w = respond 201 w (.shortRec ⟨url, sha256Hex url⟩) := by
  rw [shorten_ok ctx ds w r url hUser hParam hPut]
  exact ⟨rfl, getEntity_putEntity_same _ _ _,
    fun other h => getEntity_putEntity_other _ _ _ _ h, rfl, rfl, rfl⟩

/-- Claim C5, witness: `shorten` of `https://example.com` on the empty datastore. -/
theorem shorten_key_is_url_witness :
    (shorten sampleCtx Datastore.empty ResponseWriter.fresh (bodyRequest exampleUrl)).ds.shurls
      = putEntity exampleUrl ⟨exampleUrl, sha256Hex exampleUrl⟩ Datastore.empty.shurls ∧
    getEntity exampleUrl
      (shorten sampleCtx Datastore.empty ResponseWriter.fresh (bodyRequest exampleUrl)).ds.shurls
      = some ⟨exampleUrl, sha256Hex exampleUrl⟩ ∧
    (∀ other : String, other ≠ exampleUrl →
      getEntity other
        (shorten sampleCtx Datastore.empty ResponseWriter.fresh (bodyRequest exampleUrl)).ds.shurls
        = getEntity other Datastore.empty.shurls) ∧
    (shorten sampleCtx Datastore.empty ResponseWriter.fresh (bodyRequest exampleUrl)).ds.blog
      = Datastore.empty.blog ∧
    (shorten sampleCtx Datastore.empty ResponseWriter.fresh
      (bodyRequest exampleUrl)).ds.globalBlogState = Datastore.empty.globalBlogState ∧
    (shorten sampleCtx Datastore.empty ResponseWriter.fresh (bodyRequest exampleUrl)).w
      = respond 201 ResponseWriter.fresh (.shortRec ⟨exampleUrl, sha256Hex exampleUrl⟩) :=
  shorten_key_is_url sampleCtx Datastore.empty ResponseWriter.fresh (bodyRequest exampleUrl)
    exampleUrl (by decide) (by decide) rfl

/-- Claim C5, counterexample: `shorten` of the input `a` on the empty datastore writes one
entity; its key is `a`, its `Short` field is the 64-character address, the two differ, and
nothing is stored under the address. -/
theorem shorten_key_not_address :
    (shorten sampleCtx Datastore.empty ResponseWriter.fresh (bodyRequest "a")).ds.shurls
      = [("a", ⟨"a", "ca978112ca1bbdcafac231b39a23dc4da786eff8147c4e72b9807785afee48bb"⟩)] ∧
    sha256Hex "a" = "ca978112ca1bbdcafac231b39a23dc4da786eff8147c4e72b9807785afee48bb" ∧
    ¬ (∀ e ∈ (shorten sampleCtx Datastore.empty ResponseWriter.fresh
        (bodyRequest "a")).ds.shurls, e.1 = e.2.Short) ∧
    getEntity "ca978112ca1bbdcafac231b39a23dc4da786eff8147c4e72b9807785afee48bb"
      (shorten sampleCtx Datastore.empty ResponseWriter.fresh (bodyRequest "a")).ds.shurls
      = none := by
  decide!

/-- Claim C6, what the code does: when the query succeeds with zero matches, `unshorten`
writes the 404 `No such entry` response and does not return; it goes on to `results[0]` on
the empty list and ends in the index-out-of-range panic. -/
theorem unshorten_no_match (ctx : Context) (ds : Datastore) (w : ResponseWriter)
    (r : Request) (short : String) (hUser : ctx.user ≠ none)
    (hParam : paramFromUrlOrBody r "short" = some (short, true))
    (hQuery : ctx.faults.urlQuery = none)
    (hNone : ∀ e ∈ ds.shurls, e.2.Short ≠ short) :
    unshorten ctx ds w r =
      ⟨respond 404 w (.msi_error "No such entry"), ds,
        some "runtime error: index out of range", none⟩ := by
  rw [unshorten_ok ctx ds w r short hUser hParam hQuery]
  have : queryShort ds short = [] := by
    unfold queryShort
    rw [List.map_eq_nil_iff, List.filter_eq_nil_iff]
    intro e he
    simpa using hNone e he
  rw [this]

/-- Claim C6, witness: `unshorten` of an address on the empty datastore. -/
theorem unshorten_no_match_witness :
    unshorten sampleCtx Datastore.empty ResponseWriter.fresh (bodyRequest "abc") =
      ⟨respond 404 ResponseWriter.fresh (.msi_error "No such entry"), Datastore.empty,
        some "runtime error: index out of range", none⟩ :=
  unshorten_no_match sampleCtx Datastore.empty ResponseWriter.fresh (bodyRequest "abc") "abc"
    (by decide) (by decide) rfl (by intro e he; cases he)

/-! ## Validation and error responses -/

theorem Validate_ne_empty (p : BlogPost) (h : p.Title = "" ∨ p.Body = "" ∨ p.Ts.Unix = 0) :
    p.Validate ≠ "" := by
  unfold BlogPost.Validate
  by_cases ht : p.Title = ""
  · rw [if_pos ht]; decide
  · by_cases hb : p.Body = ""
    · rw [if_neg ht, if_pos hb]; decide
    · have hu : p.Ts.Unix = 0 := by tauto
      rw [if_neg ht, if_neg hb, if_pos hu]; decide

/-- Claim C7, as the code has it: for every `createBlog` request that passes the method
check and yields a post, and whose post fails validation (empty title, empty body, or a
clock reading with Unix time zero), no blog post is written and the blog and shortener
entities are untouched; the only effect on the datastore is that of the counter allocation,
which runs before validation: when the allocation succeeds the counter record is created or
incremented, so the rejected request consumes an identifier and is answered
`Validation failed`; when the allocation fails the datastore is unchanged. -/
theorem createBlog_invalid (ctx : Context) (ds : Datastore) (w : ResponseWriter) (r : Request)
    (post : BlogPost) (hMethod : r.Method = "POST") (hPost : requestPost r = (post, none))
    (hInvalid : post.Title = "" ∨ post.Body = "" ∨ ctx.now.Unix = 0) :
    (createBlog ctx ds w r).saved = none ∧
    (createBlog ctx ds w r).ds.blog = ds.blog ∧
    (createBlog ctx ds w r).ds.shurls = ds.shurls ∧
    (createBlog ctx ds w r).ds = (getAndIncBlogCtr ctx ds).ds ∧
    ((getAndIncBlogCtr ctx ds).err = none →
      (createBlog ctx ds w r).ds.globalBlogState = some ⟨wrapInt (persistedCtr ds + 1)⟩ ∧
      (createBlog ctx ds w r).ds ≠ ds ∧
      (createBlog ctx ds w r).w =
        errRespondHtml (w.HeaderSet "Content-type" "application/json") 400
          ("Validation failed: " ++
            (BlogPost.mk (persistedCtr ds) post.Title post.Body ctx.now).Validate)) ∧
    ((getAndIncBlogCtr ctx ds).err ≠ none → (createBlog ctx ds w r).ds = ds) := by
  have hm : requireMethodJson r w "POST"
      = (w.HeaderSet "Content-type" "application/json", true) := by
    unfold requireMethodJson
    simp [hMethod]
  have hv : ∀ id : Int, (BlogPost.mk id post.Title post.Body ctx.now).Validate ≠ "" :=
    fun id => Validate_ne_empty _ hInvalid
  cases he : (getAndIncBlogCtr ctx ds).err with
  | some err =>
    have hds := getAndIncBlogCtr_err ctx ds (by rw [he]; simp)
    have hc : createBlog ctx ds w r = ⟨errRespondHtml (w.HeaderSet "Content-type"
        "application/json") 500 ("Failed counter increment: " ++ err), ds, none, none⟩ := by
      unfold createBlog
      rw [hm, hPost]
      rcases hr : getAndIncBlogCtr ctx ds with ⟨v, e, ds1⟩
      rw [hr] at he hds
      simp only at he hds
      rw [he, hds]
    rw [hc, hds]
    refine ⟨rfl, rfl, rfl, rfl, ?_, fun _ => rfl⟩
    intro h
    cases h
  | none =>
    have hok := getAndIncBlogCtr_of_no_err ctx ds he
    have hc : createBlog ctx ds w r = ⟨errRespondHtml (w.HeaderSet "Content-type"
        "application/json") 400 ("Validation failed: " ++
          (BlogPost.mk (persistedCtr ds) post.Title post.Body ctx.now).Validate),
        { ds with globalBlogState := some ⟨wrapInt (persistedCtr ds + 1)⟩ }, none, none⟩ := by
      unfold createBlog
      rw [hm, hPost, hok]
      simp only [hv, ne_eq, not_false_eq_true, if_true]
    rw [hc, hok]
    refine ⟨rfl, rfl, rfl, rfl, fun _ => ⟨rfl, ?_, rfl⟩, fun h => absurd rfl h⟩
    intro h
    have hg := congrArg Datastore.globalBlogState h
    simp only at hg
    generalize hnext : wrapInt (persistedCtr ds + 1) = next at hg
    have hctr : persistedCtr ds = next := by
      unfold persistedCtr
      rw [← hg]
    rw [← hnext] at hctr
    exact wrapInt_ne_shift (persistedCtr ds) 1 (by decide) (by decide) hctr

/-- Claim C7, witness: a JSON post without title on the empty datastore. -/
theorem createBlog_invalid_witness :
    (createBlog sampleCtx Datastore.empty ResponseWriter.fresh untitledPostRequest).saved = none ∧
    (createBlog sampleCtx Datastore.empty ResponseWriter.fresh untitledPostRequest).ds.blog
      = Datastore.empty.blog ∧
    (createBlog sampleCtx Datastore.empty ResponseWriter.fresh untitledPostRequest).ds.shurls
      = Datastore.empty.shurls ∧
    (createBlog sampleCtx Datastore.empty ResponseWriter.fresh untitledPostRequest).ds
      = (getAndIncBlogCtr sampleCtx Datastore.empty).ds ∧
    ((getAndIncBlogCtr sampleCtx Datastore.empty).err = none →
      (createBlog sampleCtx Datastore.empty ResponseWriter.fresh
        untitledPostRequest).ds.globalBlogState
        = some ⟨wrapInt (persistedCtr Datastore.empty + 1)⟩ ∧
      (createBlog sampleCtx Datastore.empty ResponseWriter.fresh untitledPostRequest).ds
        ≠ Datastore.empty ∧
      (createBlog sampleCtx Datastore.empty ResponseWriter.fresh untitledPostRequest).w =
        errRespondHtml (ResponseWriter.fresh.HeaderSet "Content-type" "application/json") 400
          ("Validation failed: " ++
            (BlogPost.mk (persistedCtr Datastore.empty) "" "body" sampleCtx.now).Validate)) ∧
    ((getAndIncBlogCtr sampleCtx Datastore.empty).err ≠ none →
      (createBlog sampleCtx Datastore.empty ResponseWriter.fresh untitledPostRequest).ds
        = Datastore.empty) :=
  createBlog_invalid sampleCtx Datastore.empty ResponseWriter.fresh untitledPostRequest
    ⟨0, "", "body", Time.zero⟩ rfl (by decide) (Or.inl rfl)

/-- Claim C7, counterexample: a JSON post without title on the empty datastore is answered
`Validation failed: No title given`, yet the datastore after the request is not the one
before it: the counter record has been created with the value 1.  The identifier 0 is
consumed: the valid request that follows is stored with `Id` 1. -/
theorem createBlog_invalid_consumes_id :
    (createBlog sampleCtx Datastore.empty ResponseWriter.fresh untitledPostRequest).w.body
      = [.text (htmlErrTemplate "Validation failed: No title given")] ∧
    (createBlog sampleCtx Datastore.empty ResponseWriter.fresh untitledPostRequest).ds
      = ⟨[], some ⟨1⟩, []⟩ ∧
    (createBlog sampleCtx Datastore.empty ResponseWriter.fresh untitledPostRequest).ds
      ≠ Datastore.empty ∧
    savedPosts (runCreateBlog [(sampleCtx, untitledPostRequest), (sampleCtx, samplePostRequest)]
      Datastore.empty) = [sampleSaved 1] := by
  decide

/-- Claim C8, what the code does: `Validate` returns the empty message exactly when the
title is non-empty, the body is non-empty and `Ts.Unix()` is not 0, and otherwise the message
of the first failing check in the order title, body, timestamp.  The timestamp check compares
the Unix time with 0, so it rejects the instant 1970-01-01 00:00:00 UTC and accepts the zero
value of `time.Time`, whose Unix time is -62135596800. -/
theorem Validate_checks (p : BlogPost) :
    (p.Validate = "" ↔ p.Title ≠ "" ∧ p.Body ≠ "" ∧ p.Ts.Unix ≠ 0) ∧
    (p.Title = "" → p.Validate = "No title given") ∧
    (p.Title ≠ "" → p.Body = "" → p.Validate = "No body given") ∧
    (p.Title ≠ "" → p.Body ≠ "" → p.Ts.Unix = 0 → p.Validate = "Timestamp was zero") ∧
    Time.zero.IsZero = true ∧ Time.zero.Unix = -62135596800 ∧
    (BlogPost.mk 0 "title" "body" Time.zero).Validate = "" ∧
    (BlogPost.mk 0 "title" "body" ⟨62135596800, 0⟩).Validate = "Timestamp was zero" := by
  refine ⟨?_, ?_, ?_, ?_, by decide, by decide, by decide, by decide⟩
  · constructor
    · intro h
      by_contra hne
      exact Validate_ne_empty p (by tauto) h
    · rintro ⟨ht, hb, hu⟩
      unfold BlogPost.Validate
      rw [if_neg ht, if_neg hb, if_neg hu]
  · intro ht
    unfold BlogPost.Validate
    rw [if_pos ht]
  · intro ht hb
    unfold BlogPost.Validate
    rw [if_neg ht, if_pos hb]
  · intro ht hb hu
    unfold BlogPost.Validate
    rw [if_neg ht, if_neg hb, if_pos hu]

/-- Claim C9, what the code does: for an id under which no post is stored, `getOneBlog`
takes the branch of a failed read.  Its response is the one it gives for a datastore failure
with the message of `ErrNoSuchEntity`; the status of that response is 200, not 404. -/
theorem getOneBlog_absent_as_failure (ds : Datastore) (id : String) (w : ResponseWriter) :
    (getEntity id ds.blog = none →
      getOneBlog sampleCtx ds id w = getOneBlog (blogGetFailure ErrNoSuchEntity) ds id w) ∧
    getOneBlog sampleCtx Datastore.empty "42" ResponseWriter.fresh =
      ⟨errRespondHtml ResponseWriter.fresh 500
        "Failed datastore get: datastore: no such entity", Datastore.empty, none, none⟩ ∧
    (getOneBlog sampleCtx Datastore.empty "42" ResponseWriter.fresh).w.status = some 200 ∧
    (getOneBlog (blogGetFailure "transport") Datastore.empty "42" ResponseWriter.fresh).w.status
      = some 200 := by
  refine ⟨?_, by decide, by decide, by decide⟩
  intro h
  unfold getOneBlog datastoreGetBlog
  dsimp only
  rw [h]
  rfl

/-- Claim C10, what the code does: `errRespondHtml` never uses its `code` argument.  For
every writer, code and message it only writes the error page, so on a response whose header
is not yet written the status is 200 whatever the code, while `errRespondJson` sets the
status to the code.  The failures of the counter allocation and of the post write in
`createBlog`, and of the read in `getOneBlog`, are answered with status 200. -/
theorem errRespondHtml_ignores_code (w : ResponseWriter) (code : Int) (errMsg : String) :
    errRespondHtml w code errMsg = w.Write (.text (htmlErrTemplate errMsg)) ∧
    errRespondHtml w code errMsg = errRespondHtml w 200 errMsg ∧
    (errRespondHtml ResponseWriter.fresh code errMsg).status = some 200 ∧
    (errRespondJson ResponseWriter.fresh code errMsg).status = some code ∧
    (errRespondHtml ResponseWriter.fresh 500 "Failed counter increment: timeout").status
      = some 200 ∧
    (createBlog (ctrGetFailure "timeout") Datastore.empty ResponseWriter.fresh
      samplePostRequest).w.status = some 200 ∧
    (createBlog (postPutFailure "timeout") Datastore.empty ResponseWriter.fresh
      samplePostRequest).w.status = some 200 ∧
    (getOneBlog (blogGetFailure "timeout") Datastore.empty "1" ResponseWriter.fresh).w.status
      = some 200 := by
  exact ⟨rfl, rfl, rfl, rfl, by decide, by decide, by decide, by decide⟩

end Hello
